import Mathlib

/-!
Verification of the Oniguruma regex adapter of Notepad3
(`scintilla/oniguruma/scintilla/OnigurumaRegExEngine.cxx`).

The file shallowly embeds the adapter code: strings are `List Char`
(one `Char` stands for one byte of the `std::string`), positions are
`Int` (`Sci::Position` is a signed 64-bit type and none of the claims
involves overflow), and the external Oniguruma matcher
(`onig_new` / `onig_search`) is a pair of oracle functions supplied as
parameters, with outcomes mirroring the return conventions of the
library.  Engine state (`m_RegExprStrg`, `m_CmplOptions`, `m_RegExpr`,
`m_Region`, `m_MatchPos`, `m_MatchLen`, `m_SubstBuffer`) is an explicit
structure threaded through the operations.  Two ghost fields
(`nextHandle`, `freed`) track the identity and the release of matcher
handles so that dangling / double-freed handles are expressible.
-/

/-- The NUL byte, the value `std::string::operator[]` yields at `size()`. -/
def ch0 : Char := Char.ofNat 0

/-- Byte access `s[i]` of a `std::string`: positions `≥ size()` read as NUL
(the code only ever reads one past the end, which C++ defines as `'\0'`). -/
def charAt (s : List Char) (i : Nat) : Char := s.getD i ch0

/-- `(ch >= '0') && (ch <= '9')` as used by `SubstituteByPosition`. -/
def isDigitCh (c : Char) : Bool := decide ('0' ≤ c) && decide (c ≤ '9')

/-- `GetHexDigit` (OnigurumaRegExEngine.cxx): hex value of a character, `-1`
when it is not a hex digit. -/
def getHexDigit (c : Char) : Int :=
  if '0' ≤ c ∧ c ≤ '9' then (c.toNat : Int) - ('0'.toNat : Int)
  else if 'A' ≤ c ∧ c ≤ 'F' then (c.toNat : Int) - ('A'.toNat : Int) + 10
  else if 'a' ≤ c ∧ c ≤ 'f' then (c.toNat : Int) - ('a'.toNat : Int) + 10
  else -1

/-! ### Oniguruma option bits

Numeric values of the option constants, taken from the vendored
`oniguruma.h` (v6.9.2), which sits outside this excerpt.  The code also
passes the syntax-op constant `ONIG_SYN_OP_DOT_ANYCHAR` (value `1 <<< 1`)
to `ONIG_OPTION_ON` / `ONIG_OPTION_OFF`, so it is modelled with its
numeric value as well. -/

def ONIG_OPTION_NONE : Nat := 0
def ONIG_OPTION_IGNORECASE : Nat := 1
def ONIG_OPTION_EXTEND : Nat := 2
def ONIG_OPTION_MULTILINE : Nat := 4
def ONIG_OPTION_SINGLELINE : Nat := 8
def ONIG_OPTION_FIND_LONGEST : Nat := 16
def ONIG_OPTION_NEGATE_SINGLELINE : Nat := 64
def ONIG_OPTION_NOTBOL : Nat := 512
def ONIG_OPTION_NOTEOL : Nat := 1024
def ONIG_OPTION_DEFAULT : Nat := ONIG_OPTION_NONE
def ONIG_SYN_OP_DOT_ANYCHAR : Nat := 2

/-- `ONIG_OPTION_ON(opt, b)`, i.e. `opt |= b`. -/
def optOn (o b : Nat) : Nat := o ||| b

/-- `ONIG_OPTION_OFF(opt, b)`, i.e. `opt &= ~b`: clearing the common bits of
`o` and `b` equals subtracting `o &&& b` from `o`. -/
def optOff (o b : Nat) : Nat := o - (o &&& b)

/-- Scintilla end-of-line mode constants (`SC_EOL_*`). -/
def SC_EOL_CRLF : Nat := 0

def SC_EOL_CR : Nat := 1

def SC_EOL_LF : Nat := 2

/-- Modelled from the spec: the auxiliary search-flag bitmask defines a single
"dot matches newline" bit (`SCFIND_DOT_MATCH_ALL`, declared in the host's
Scintilla headers outside this excerpt).  Its exact numeric value is
immaterial to every claim; a dedicated power of two is used. -/
def SCFIND_DOT_MATCH_ALL : Nat := 16777216

/-- `SetSimpleOptions` (OnigurumaRegExEngine.cxx): resolves the matcher
option bitset.  `eolMode` and `forwardSearch` are accepted but, exactly as
in the code, do not influence the result (their branches are empty). -/
def setSimpleOptions (eolMode : Nat) (caseSensitive forwardSearch : Bool)
    (searchFlags : Nat) : Nat :=
  let o0 := ONIG_OPTION_DEFAULT
  let o1 := optOff o0 ONIG_OPTION_EXTEND
  let o2 := optOff o1 ONIG_OPTION_SINGLELINE
  let o3 := optOn o2 ONIG_OPTION_NEGATE_SINGLELINE
  let o4 := optOff o3 ONIG_OPTION_FIND_LONGEST
  let o5 :=
    if searchFlags.land SCFIND_DOT_MATCH_ALL ≠ 0 then
      optOn (optOn o4 ONIG_SYN_OP_DOT_ANYCHAR) ONIG_OPTION_MULTILINE
    else
      optOff (optOff o4 ONIG_SYN_OP_DOT_ANYCHAR) ONIG_OPTION_MULTILINE
  let o6 :=
    if caseSensitive then optOff o5 ONIG_OPTION_IGNORECASE
    else optOn o5 ONIG_OPTION_IGNORECASE
  let _ := eolMode
  let _ := forwardSearch
  o6

/-! ### `replaceAll`

`replaceAll(source, from, tgt)` repeatedly uses `std::string::find` from the
position after the previous hit and splices the pieces into a fresh string.
`std::string::find(pat, pos)` returns the smallest index `k ≥ pos` at which
`pat` occurs as a contiguous substring (the occurrence must fit inside the
string), and `npos` when there is none. -/

/-- Substring test: does `pat` occur in `s` starting at index `k`? -/
def subMatchAt (s pat : List Char) (k : Nat) : Bool :=
  decide (k + pat.length ≤ s.length) &&
    decide (∀ m, m < pat.length → pat.getD m ch0 = s.getD (k + m) ch0)

/-- Scan for the first match position, examining `fuel` candidate starts
beginning at `i`. -/
def findFromAux (s pat : List Char) (i fuel : Nat) : Option Nat :=
  match fuel with
  | 0 => none
  | f + 1 => if subMatchAt s pat i then some i else findFromAux s pat (i + 1) f

/-- `std::string::find(pat, i)` on `s`: `none` plays the role of `npos`.
`s.length + 1 - i` candidate starts cover every feasible position. -/
def strFind (s pat : List Char) (i : Nat) : Option Nat :=
  findFromAux s pat i (s.length + 1 - i)

theorem subMatchAt_fits {s pat : List Char} {k : Nat}
    (h : subMatchAt s pat k = true) : k + pat.length ≤ s.length := by
  have := (Bool.and_eq_true _ _).mp h
  exact of_decide_eq_true this.1

theorem findFromAux_ge {s pat : List Char} :
    ∀ {i fuel j : Nat}, findFromAux s pat i fuel = some j → i ≤ j := by
  intro i fuel
  induction fuel generalizing i with
  | zero => intro j h; simp [findFromAux] at h
  | succ f ih =>
    intro j h
    rw [findFromAux] at h
    by_cases hm : subMatchAt s pat i
    · simp [hm] at h; omega
    · simp [hm] at h
      have := ih h
      omega

theorem findFromAux_match {s pat : List Char} :
    ∀ {i fuel j : Nat}, findFromAux s pat i fuel = some j →
      subMatchAt s pat j = true := by
  intro i fuel
  induction fuel generalizing i with
  | zero => intro j h; simp [findFromAux] at h
  | succ f ih =>
    intro j h
    rw [findFromAux] at h
    by_cases hm : subMatchAt s pat i
    · simp [hm] at h; exact h ▸ hm
    · simp [hm] at h; exact ih h

theorem findFromAux_min {s pat : List Char} :
    ∀ {i fuel j : Nat}, findFromAux s pat i fuel = some j →
      ∀ k, i ≤ k → k < j → subMatchAt s pat k = false := by
  intro i fuel
  induction fuel generalizing i with
  | zero => intro j h; simp [findFromAux] at h
  | succ f ih =>
    intro j h k hik hkj
    rw [findFromAux] at h
    by_cases hm : subMatchAt s pat i
    · simp [hm] at h; omega
    · simp [hm] at h
      rcases Nat.eq_or_lt_of_le hik with rfl | hlt
      · simpa using hm
      · exact ih h k hlt hkj

theorem findFromAux_none {s pat : List Char} :
    ∀ {i fuel : Nat}, findFromAux s pat i fuel = none →
      ∀ k, i ≤ k → k < i + fuel → subMatchAt s pat k = false := by
  intro i fuel
  induction fuel generalizing i with
  | zero => intro _ k h1 h2; omega
  | succ f ih =>
    intro h k hik hkf
    rw [findFromAux] at h
    by_cases hm : subMatchAt s pat i
    · simp [hm] at h
    · simp [hm] at h
      rcases Nat.eq_or_lt_of_le hik with rfl | hlt
      · simpa using hm
      · exact ih h k hlt (by omega)

theorem strFind_ge {s pat : List Char} {i j : Nat}
    (h : strFind s pat i = some j) : i ≤ j :=
  findFromAux_ge h

theorem strFind_match {s pat : List Char} {i j : Nat}
    (h : strFind s pat i = some j) : subMatchAt s pat j = true :=
  findFromAux_match h

theorem strFind_min {s pat : List Char} {i j : Nat}
    (h : strFind s pat i = some j) :
    ∀ k, i ≤ k → k < j → subMatchAt s pat k = false :=
  findFromAux_min h

theorem strFind_none {s pat : List Char} {i : Nat}
    (h : strFind s pat i = none) :
    ∀ k, i ≤ k → subMatchAt s pat k = false := by
  intro k hik
  by_cases hk : k < i + (s.length + 1 - i)
  · exact findFromAux_none h k hik hk
  · have hlen : s.length < k := by omega
    unfold subMatchAt
    have : ¬(k + pat.length ≤ s.length) := by omega
    simp [this]

/-- The splicing loop of `replaceAll`.  The C++ loop does not terminate when
`from` is empty (`find` then always succeeds in place), so the hypothesis
`hp` records the non-empty needle; the adapter only ever calls it with a
one-byte needle (the dot). -/
def replaceAllAux (s pat tgt : List Char) (hp : pat ≠ []) (lastPos : Nat)
    (acc : List Char) : List Char :=
  match hf : strFind s pat lastPos with
  | some findPos =>
      replaceAllAux s pat tgt hp (findPos + pat.length)
        (acc ++ (s.drop lastPos).take (findPos - lastPos) ++ tgt)
  | none => acc ++ s.drop lastPos
termination_by s.length + 1 - lastPos
decreasing_by
  have h1 := strFind_ge hf
  have h2 := subMatchAt_fits (strFind_match hf)
  have h3 : 0 < pat.length := List.length_pos.mpr hp
  omega

/-- `replaceAll(source, from, tgt)` (OnigurumaRegExEngine.cxx).  An empty
needle makes the C++ loop diverge; that case is returned unchanged here and
is never exercised by the adapter. -/
def replaceAll (source pat tgt : List Char) : List Char :=
  if hp : pat = [] then source
  else replaceAllAux source pat tgt hp 0 []

/-- Specification-side description of a blunt global one-character textual
substitution: every occurrence of the byte `a` — wherever it sits, including
inside character classes or escaped contexts — becomes `tgt`, all other
bytes are copied through. -/
def globalSubstSpec (a : Char) (tgt : List Char) : List Char → List Char
  | [] => []
  | c :: r => (if c = a then tgt else [c]) ++ globalSubstSpec a tgt r

theorem globalSubstSpec_append (a : Char) (tgt l1 l2 : List Char) :
    globalSubstSpec a tgt (l1 ++ l2) =
      globalSubstSpec a tgt l1 ++ globalSubstSpec a tgt l2 := by
  induction l1 with
  | nil => simp [globalSubstSpec]
  | cons c r ih => simp [globalSubstSpec, ih]

theorem globalSubstSpec_eq_self {a : Char} {tgt l : List Char}
    (h : ∀ c ∈ l, c ≠ a) : globalSubstSpec a tgt l = l := by
  induction l with
  | nil => rfl
  | cons c r ih =>
    have hc : c ≠ a := h c (List.mem_cons_self c r)
    simp [globalSubstSpec, hc, ih fun x hx => h x (List.mem_cons_of_mem c hx)]

theorem subMatchAt_single {s : List Char} {a : Char} {k : Nat} :
    subMatchAt s [a] k = true ↔ k < s.length ∧ s.getD k ch0 = a := by
  unfold subMatchAt
  rw [Bool.and_eq_true, decide_eq_true_iff, decide_eq_true_iff]
  constructor
  · rintro ⟨h1, h2⟩
    have h0 := h2 0 (by simp)
    simp only [List.getD_cons_zero, Nat.add_zero] at h0
    exact ⟨by simpa using h1, h0.symm⟩
  · rintro ⟨h1, h2⟩
    refine ⟨by simpa using h1, ?_⟩
    intro m hm
    have hm0 : m = 0 := Nat.lt_one_iff.mp (by simpa using hm)
    subst hm0
    simp only [List.getD_cons_zero, Nat.add_zero]
    exact h2.symm

theorem replaceAllAux_single (s tgt : List Char) (a : Char)
    (hp : ([a] : List Char) ≠ []) (lastPos : Nat) (acc : List Char) :
    replaceAllAux s [a] tgt hp lastPos acc =
      acc ++ globalSubstSpec a tgt (s.drop lastPos) := by
  rw [replaceAllAux]
  split
  case _ findPos hf =>
    have hge : lastPos ≤ findPos := strFind_ge hf
    have hmatch := subMatchAt_single.mp (strFind_match hf)
    have hmin := strFind_min hf
    have hrec := replaceAllAux_single s tgt a hp (findPos + 1)
      (acc ++ (s.drop lastPos).take (findPos - lastPos) ++ tgt)
    -- decompose the suffix at the match position
    have hsplit1 : (s.drop lastPos).take (findPos - lastPos) ++ s.drop (lastPos + (findPos - lastPos)) = s.drop lastPos :=
      List.drop_take_append_drop s lastPos (findPos - lastPos)
    have harith : lastPos + (findPos - lastPos) = findPos := by omega
    rw [harith] at hsplit1
    have hcons : s.drop findPos = s.getD findPos ch0 :: s.drop (findPos + 1) := by
      rw [List.getD_eq_getElem _ _ hmatch.1]
      exact List.drop_eq_getElem_cons hmatch.1
    -- no occurrence of `a` strictly before the match position
    have hpre : ∀ c ∈ (s.drop lastPos).take (findPos - lastPos), c ≠ a := by
      intro c hc
      rw [List.mem_iff_getElem] at hc
      obtain ⟨m, hm, hcm⟩ := hc
      rw [List.length_take, List.length_drop] at hm
      have hm2 := Nat.lt_min.mp hm
      have hmlen : lastPos + m < s.length := by omega
      rw [List.getElem_take, List.getElem_drop] at hcm
      have hfalse := hmin (lastPos + m) (by omega) (by omega)
      rw [Bool.eq_false_iff] at hfalse
      intro hca
      apply hfalse
      apply subMatchAt_single.mpr
      refine ⟨hmlen, ?_⟩
      rw [List.getD_eq_getElem _ _ hmlen]
      exact hca ▸ hcm
    have hmain : globalSubstSpec a tgt (s.drop lastPos)
        = (s.drop lastPos).take (findPos - lastPos) ++ (tgt ++ globalSubstSpec a tgt (s.drop (findPos + 1))) := by
      conv_lhs => rw [← hsplit1]
      rw [globalSubstSpec_append, globalSubstSpec_eq_self hpre, hcons, hmatch.2]
      congr 1
      simp [globalSubstSpec]
    simp only [List.length_singleton]
    rw [hrec, hmain]
    simp [List.append_assoc]
  case _ hf =>
    have hnone := strFind_none hf
    congr 1
    refine (globalSubstSpec_eq_self ?_).symm
    intro c hc
    rw [List.mem_iff_getElem] at hc
    obtain ⟨m, hm, hcm⟩ := hc
    rw [List.length_drop] at hm
    have hmlen : lastPos + m < s.length := by omega
    rw [List.getElem_drop] at hcm
    have hfalse := hnone (lastPos + m) (by omega)
    rw [Bool.eq_false_iff] at hfalse
    intro hca
    apply hfalse
    apply subMatchAt_single.mpr
    refine ⟨hmlen, ?_⟩
    rw [List.getD_eq_getElem _ _ hmlen]
    exact hca ▸ hcm
termination_by s.length + 1 - lastPos
decreasing_by
  have h2 := hmatch.1
  omega

/-- `replaceAll` with a one-byte needle is exactly the blunt global
substitution. -/
theorem replaceAll_single (s tgt : List Char) (a : Char) :
    replaceAll s [a] tgt = globalSubstSpec a tgt s := by
  unfold replaceAll
  rw [dif_neg (by simp : ([a] : List Char) ≠ [])]
  simpa using replaceAllAux_single s tgt a (by simp) 0 []

/-- `OnigurumaRegExEngine::translateRegExpr`: prepends a word-boundary
assertion when `wholeWord` or `wordStart` is set, additionally appends one
when `wholeWord` is set, and then replaces every dot of the wrapped pattern
by the word-class token; without either flag the pattern passes through
unchanged.  The `eolMode` switch in the source is entirely commented out.
The function has no failure path. -/
def translateRegExpr (regExprStr : List Char) (wholeWord wordStart : Bool)
    (eolMode : Nat) : List Char :=
  let _ := eolMode
  if wholeWord || wordStart then
    let tmp := ['\\', 'b'] ++ regExprStr ++ (if wholeWord then ['\\', 'b'] else [])
    replaceAll tmp ['.'] ['\\', 'w']
  else regExprStr

/-! ### Data model: match region, document collaborator, engine state -/

/-- `OnigRegion`: `num_regs` capture slots with `beg[]` / `end[]` byte
offsets (`-1` when a group did not participate). -/
structure OnigRegion where
  numRegs : Nat
  begs : List Int
  ends : List Int
deriving DecidableEq

/-- `onig_region_init` resets the region to zero registers. -/
def emptyRegion : OnigRegion := ⟨0, [], []⟩

/-- The Scintilla `Document` collaborator, reduced to the members the engine
uses: `Length()`, `eolMode`, `MovePositionOutsideChar(pos, moveDir, false)`
and `RangePointer(pos, len)`.  Range pointers into the document are modelled
by their byte offsets (the collaborator guarantees a single contiguous
view, so pointer comparisons coincide with offset comparisons). -/
structure Doc where
  len : Int
  eolMode : Nat
  moveOutside : Int → Int → Int
  bytes : List Char

/-- The bytes `RangePointer(pos, len)` exposes. -/
def Doc.rangeBytes (doc : Doc) (pos l : Int) : List Char :=
  (doc.bytes.drop pos.toNat).take l.toNat

/-- The mutable per-instance state of `OnigurumaRegExEngine`.  `regExpr` is
`m_RegExpr` (`none` = `nullptr`, `some h` = a handle with ghost identity
`h`).  `nextHandle` and `freed` are ghost bookkeeping: `nextHandle` is the
identity the next successful `onig_new` will produce and `freed` lists every
handle identity already passed to `onig_free`, so a dangling handle is a
`some h` with `h ∈ freed` and a double free is a duplicate in `freed`. -/
structure Engine where
  regExprStrg : List Char
  cmplOptions : Nat
  regExpr : Option Nat
  region : OnigRegion
  matchPos : Int
  matchLen : Int
  substBuffer : List Char
  nextHandle : Nat
  freed : List Nat
deriving DecidableEq

/-- A freshly constructed engine (`m_RegExpr = nullptr`,
`m_MatchPos = ONIG_MISMATCH`, `m_MatchLen = 0`, empty region). -/
def initialEngine : Engine :=
  ⟨[], ONIG_OPTION_DEFAULT, none, emptyRegion, -1, 0, [], 0, []⟩

/-- `onig_free(m_RegExpr)`: records the release of the held handle in the
ghost `freed` list.  Exactly as in C, the stored pointer is *not* nulled.
`onig_free(nullptr)` is a no-op. -/
def freeRegExpr (e : Engine) : Engine :=
  match e.regExpr with
  | none => e
  | some h => { e with freed := e.freed ++ [h] }

/-- Handle-lifecycle well-formedness: the held handle (if any) is live and
every freed handle was released exactly once. -/
def wfHandles (e : Engine) : Prop :=
  (∀ h, e.regExpr = some h → h < e.nextHandle ∧ h ∉ e.freed) ∧
    e.freed.Nodup ∧ ∀ h ∈ e.freed, h < e.nextHandle

instance (e : Engine) : Decidable (wfHandles e) := by
  unfold wfHandles
  have : Decidable (∀ h, e.regExpr = some h → h < e.nextHandle ∧ h ∉ e.freed) := by
    cases hr : e.regExpr with
    | none => exact isTrue (by simp)
    | some h0 =>
      by_cases hc : h0 < e.nextHandle ∧ h0 ∉ e.freed
      · exact isTrue (by intro h hh; cases hh; exact hc)
      · exact isFalse (by intro hall; exact hc (hall h0 rfl))
  exact instDecidableAnd

/-! ### `convertReplExpr`: escape pre-expansion of the template -/

/-- The four-level nested hex parse inside `case 'x': case 'u':` of
`convertReplExpr`.  `p` is the index of the first candidate digit
(`i` right after the two `++i` steps).  Returns the accumulated value
`val[0]` and the final scan index (one past the last consumed digit, or
still at the first candidate when it is not a hex digit) — the surrounding
`for` loop then increments once more, which skips one further character.
`bShort` is `ch == 'x'` (stop after two digits). -/
def hexScan (s : List Char) (p : Nat) (bShort : Bool) : Int × Nat :=
  let h1 := getHexDigit (charAt s p)
  if h1 < 0 then (0, p)
  else
    let h2 := getHexDigit (charAt s (p + 1))
    if h2 < 0 then (h1, p + 1)
    else if bShort then (h1 * 16 + h2, p + 2)
    else
      let h3 := getHexDigit (charAt s (p + 2))
      if h3 < 0 then (h1 * 16 + h2, p + 2)
      else
        let h4 := getHexDigit (charAt s (p + 3))
        if h4 < 0 then ((h1 * 16 + h2) * 16 + h3, p + 3)
        else (((h1 * 16 + h2) * 16 + h3) * 16 + h4, p + 4)

theorem hexScan_ge (s : List Char) (p : Nat) (b : Bool) :
    p ≤ (hexScan s p b).2 := by
  unfold hexScan
  dsimp only
  split_ifs <;> simp <;> omega

/-- Modelled from the spec/API contract of the external
`WideCharToMultiByte(CP_UTF8, 0, val, -1, buf, ARRAYSIZE(val), ...)` call:
the output buffer size passed is `ARRAYSIZE(val) = 2` bytes, which holds a
single UTF-8 byte plus the terminator, so a value below `0x80` is emitted
as that byte, while any value needing a multi-byte encoding makes the
conversion fail and leaves `buf` zero-initialised — the code then pushes
`buf[0]`, a single NUL byte. -/
def wcEnc (v : Int) : List Char :=
  if v < 128 then [Char.ofNat v.toNat] else [ch0]

/-- What the hex branch pushes: a non-zero decoded value goes through the
(2-byte-buffer) conversion, a zero value falls back to the bare letter
(`// unknown hex seq`). -/
def hexPush (v : Int) (letterCh : Char) : List Char :=
  if v = 0 then [letterCh] else wcEnc v

/-- The body of `OnigurumaRegExEngine::convertReplExpr`, as a recursion on
the scan index `i`.  Each branch continues at the index value the C++ `for`
loop reaches after its `++i` steps. -/
def convGo (s : List Char) (i : Nat) (acc : List Char) : List Char :=
  if hi : i < s.length then
    let c := charAt s i
    if c = '\\' then
      let ch := charAt s (i + 1)
      if '1' ≤ ch ∧ ch ≤ '9' then convGo s (i + 2) (acc ++ ['$', ch])
      else if ch = 'a' then convGo s (i + 2) (acc ++ [Char.ofNat 7])
      else if ch = 'b' then convGo s (i + 2) (acc ++ [Char.ofNat 27])
      else if ch = 'f' then convGo s (i + 2) (acc ++ [Char.ofNat 12])
      else if ch = 'n' then convGo s (i + 2) (acc ++ [Char.ofNat 10])
      else if ch = 'r' then convGo s (i + 2) (acc ++ [Char.ofNat 13])
      else if ch = 't' then convGo s (i + 2) (acc ++ [Char.ofNat 9])
      else if ch = 'v' then convGo s (i + 2) (acc ++ [Char.ofNat 11])
      else if ch = '\\' then convGo s (i + 2) (acc ++ ['\\', '\\'])
      else if ch = 'x' ∨ ch = 'u' then
        let pr := hexScan s (i + 2) (ch = 'x')
        convGo s (pr.2 + 1) (acc ++ hexPush pr.1 ch)
      else convGo s (i + 2) (acc ++ ['\\', ch])
    else convGo s (i + 1) (acc ++ [c])
  else acc
termination_by s.length + 1 - i
decreasing_by
  all_goals first
    | omega
    | (have hg := hexScan_ge s (i + 2) (decide (charAt s (i + 1) = 'x')); omega)

/-- `OnigurumaRegExEngine::convertReplExpr`. -/
def convertReplExpr (s : List Char) : List Char := convGo s 0 []

/-! ### `SubstituteByPosition`: backreference expansion -/

/-- The bytes appended for capture group `g`:
`doc->RangePointer(m_Region.beg[g], m_Region.end[g] - m_Region.beg[g])`.
A non-participating group has `beg = end = -1` and contributes zero
bytes. -/
def groupBytes (doc : Doc) (rgn : OnigRegion) (g : Nat) : List Char :=
  let rBeg := rgn.begs.getD g 0
  let l := rgn.ends.getD g 0 - rBeg
  doc.rangeBytes rBeg l

/-- Modelled from the spec: `IsCharAlphaNumericA` (Windows) accepts
alphanumeric characters; on the byte range the template scanner feeds it
this is the ASCII letters and digits. -/
def isAlphaNumA (c : Char) : Bool := c.isAlphanum

/-- The `while (rawReplStrg[k] && IsCharAlphaNumericA(rawReplStrg[k])) ++k`
scan of the named-group branch. -/
def scanName (s : List Char) (k : Nat) : Nat :=
  if charAt s k ≠ ch0 ∧ isAlphaNumA (charAt s k) then scanName s (k + 1) else k
termination_by s.length - k
decreasing_by
  rename_i h
  have hk : k < s.length := by
    by_contra hk
    exact h.1 (List.getD_eq_default _ _ (by omega))
  omega

theorem scanName_ge (s : List Char) (k : Nat) : k ≤ scanName s k := by
  rw [scanName]
  split
  · have := scanName_ge s (k + 1)
    omega
  · exact Nat.le_refl k
termination_by s.length - k
decreasing_by
  rename_i h
  have hk : k < s.length := by
    by_contra hk
    exact h.1 (List.getD_eq_default _ _ (by omega))
  omega

/-- The name-table lookup `onig_name_to_backref_number` of the compiled
pattern: maps the name bytes to a group number, negative when unknown. -/
abbrev NameTable := List Char → Int

/-- The start index `k` of a named-group reference at template position `j`:
`j+3` after `$+{`, `j+2` after `${`, and `0` (no named reference) otherwise
— the ternary chain initialising `k` in `SubstituteByPosition`. -/
def nameStart (s : List Char) (j : Nat) : Nat :=
  if charAt s (j + 1) = '+' ∧ charAt s (j + 2) = '{' then j + 3
  else if charAt s (j + 1) = '{' then j + 2
  else 0

theorem nameStart_pos_ge {s : List Char} {j : Nat}
    (h : 0 < nameStart s j) : j + 2 ≤ nameStart s j := by
  unfold nameStart at *
  split_ifs at * <;> omega

/-- The scan loop of `OnigurumaRegExEngine::SubstituteByPosition` over the
escape-expanded template `s`.  `j` is the loop index; each recursive call
resumes at the index the C++ `for` reaches after the branch's `j`
mutations plus the loop's own `++j`. -/
def substLoop (doc : Doc) (rgn : OnigRegion) (nameTab : NameTable)
    (s : List Char) (j : Nat) (acc : List Char) : List Char :=
  if hj : j < s.length then
    let c := charAt s j
    if c = '$' ∨ c = '\\' then
      if isDigitCh (charAt s (j + 1)) then
        let digit2nd := isDigitCh (charAt s (j + 2)) && decide (rgn.numRegs > 10)
        let grpNum :=
          if digit2nd then
            ((charAt s (j + 1)).toNat - '0'.toNat) * 10 + ((charAt s (j + 2)).toNat - '0'.toNat)
          else (charAt s (j + 1)).toNat - '0'.toNat
        let app := if grpNum < rgn.numRegs then groupBytes doc rgn grpNum else []
        substLoop doc rgn nameTab s (j + (if digit2nd then 2 else 1) + 1) (acc ++ app)
      else if c = '$' then
        if hk0 : 0 < nameStart s j then
          let k := scanName s (nameStart s j)
          if charAt s k = '}' then
            let g := nameTab ((s.drop (nameStart s j)).take (k - nameStart s j))
            let app := if 0 ≤ g ∧ g < (rgn.numRegs : Int) then groupBytes doc rgn g.toNat else []
            substLoop doc rgn nameTab s (k + 1) (acc ++ app)
          else substLoop doc rgn nameTab s (j + 1) (acc ++ [c])
        else substLoop doc rgn nameTab s (j + 1) (acc ++ [c])
      else if charAt s (j + 1) = '$' ∨ charAt s (j + 1) = '\\' then
        substLoop doc rgn nameTab s (j + 2) (acc ++ [charAt s (j + 1)])
      else substLoop doc rgn nameTab s (j + 1) (acc ++ [c])
    else substLoop doc rgn nameTab s (j + 1) (acc ++ [c])
  else acc
termination_by s.length + 1 - j
decreasing_by
  all_goals first
    | omega
    | (have h1 := nameStart_pos_ge hk0
       have h2 := scanName_ge s (nameStart s j)
       omega)

/-- Result of `SubstituteByPosition`: the returned pointer (`none` =
`nullptr`), the value written to the in/out length slot, and the engine
state after the call. -/
structure SubstResult where
  res : Option (List Char)
  lengthOut : Int
  state : Engine
deriving DecidableEq

/-- `OnigurumaRegExEngine::SubstituteByPosition`.  With no prior successful
match (`m_MatchPos < 0`) it writes `-1` to the length slot and returns
`nullptr` before touching anything.  Otherwise it takes the first
`lengthIn` bytes of `text`, pre-expands escapes, runs the backreference
scan and returns the internal buffer with its length. -/
def substituteByPosition (nameTab : NameTable) (e : Engine) (doc : Doc)
    (text : List Char) (lengthIn : Int) : SubstResult :=
  if e.matchPos < 0 then ⟨none, -1, e⟩
  else
    let sText := text.take lengthIn.toNat
    let rawRepl := convertReplExpr sText
    let buf := substLoop doc e.region nameTab rawRepl 0 []
    ⟨some buf, (buf.length : Int), { e with substBuffer := buf }⟩

/-! ### `FindText`: option resolution, recompilation cache, range search -/

/-- Outcome of `onig_new`: success (the engine stores a fresh handle),
compile failure (`res != ONIG_NORMAL`, carrying the error code — `onig_new`
then stores no handle), or a C++ exception reaching the surrounding
`catch (...)`. -/
inductive CompileOutcome where
  | ok : CompileOutcome
  | err : Int → CompileOutcome
  | exc : CompileOutcome
deriving DecidableEq

/-- The arguments of one `onig_search` call that the oracle may depend on:
the document extent (`str`/`end` pointers as offsets `0`/`strEnd`), the
start/range pointers and the search-time options. -/
structure SearchCall where
  strEnd : Int
  start : Int
  limit : Int
  options : Nat
deriving DecidableEq

/-- Outcome of `onig_search`: a return value `r` (match position `≥ 0`,
`ONIG_MISMATCH = -1`, or an error code `< -1`) together with the region it
wrote, or a C++ exception reaching the surrounding `catch (...)`. -/
inductive SearchOutcome where
  | res : Int → OnigRegion → SearchOutcome
  | exc : SearchOutcome
deriving DecidableEq

/-- The external compiler: deterministic in the effective pattern bytes and
the compile options. -/
abbrev Compiler := List Char → Nat → CompileOutcome

/-- The external searcher: deterministic in the handle identity and the
call arguments. -/
abbrev Searcher := Nat → SearchCall → SearchOutcome

/-- The range normalisation at the top of `FindText`: both endpoints are
moved outside multi-byte characters (`MovePositionOutsideChar`), backward
searches additionally re-move `minPos - 1`; the result is the
`(rangeBeg, rangeEnd)` pair. -/
def normRange (doc : Doc) (minPos maxPos : Int) : Int × Int :=
  let findForward := minPos ≤ maxPos
  let inc : Int := if findForward then 1 else -1
  let minP := doc.moveOutside minPos inc
  let maxP := doc.moveOutside maxPos inc
  let minP2 := if findForward then minP else doc.moveOutside (minP - 1) inc
  (if findForward then minP2 else maxP, if findForward then maxP else minP2)

/-- The effective (translated) pattern that is compiled and cached. -/
def effPattern (pat : List Char) (word wordStart : Bool) (eolMode : Nat) : List Char :=
  translateRegExpr pat word wordStart eolMode

/-- The effective option bitset: `SetSimpleOptions` plus `NOTBOL` when the
range starts after document begin and `NOTEOL` when it ends before document
end (`ONIG_OPTION_ON` with `ONIG_OPTION_NONE` is a no-op). -/
def effOptions (doc : Doc) (minPos maxPos : Int) (caseSensitive : Bool)
    (searchFlags : Nat) : Nat :=
  let findForward := minPos ≤ maxPos
  let rangeBeg := (normRange doc minPos maxPos).1
  let rangeEnd := (normRange doc minPos maxPos).2
  let o1 := setSimpleOptions doc.eolMode caseSensitive findForward searchFlags
  let o2 := optOn o1 (if rangeBeg > 0 then ONIG_OPTION_NOTBOL else ONIG_OPTION_NONE)
  optOn o2 (if rangeEnd < doc.len then ONIG_OPTION_NOTEOL else ONIG_OPTION_NONE)

/-- The `onig_search` call `FindText` issues: the full document as outer
bounds, the normalised sub-range as start/limit — swapped for a backward
search. -/
def effCall (doc : Doc) (minPos maxPos : Int) (caseSensitive : Bool)
    (searchFlags : Nat) : SearchCall :=
  let findForward := minPos ≤ maxPos
  let rangeBeg := (normRange doc minPos maxPos).1
  let rangeEnd := (normRange doc minPos maxPos).2
  { strEnd := doc.len
    start := if findForward then rangeBeg else rangeEnd
    limit := if findForward then rangeEnd else rangeBeg
    options := effOptions doc minPos maxPos caseSensitive searchFlags }

/-- The recompilation test of `FindText`:
`(m_RegExpr == nullptr) || (m_CmplOptions != onigOptions) ||
(m_RegExprStrg.compare(sRegExprStrg) != 0)`. -/
def needsRecompile (e : Engine) (doc : Doc) (minPos maxPos : Int)
    (pat : List Char) (caseSensitive word wordStart : Bool)
    (searchFlags : Nat) : Prop :=
  e.regExpr = none ∨
    e.cmplOptions ≠ effOptions doc minPos maxPos caseSensitive searchFlags ∨
    e.regExprStrg ≠ effPattern pat word wordStart doc.eolMode

instance (e : Engine) (doc : Doc) (minPos maxPos : Int) (pat : List Char)
    (cs w ws : Bool) (sf : Nat) :
    Decidable (needsRecompile e doc minPos maxPos pat cs w ws sf) := by
  unfold needsRecompile
  infer_instance

/-- Result of one `FindText` call: the return value, the value written to
`*length` (`none` when the early-error returns leave the out-slot
untouched), the engine state afterwards, and two ghost observations:
whether the pattern was (re)compiled and whether `onig_search` was
invoked. -/
structure FindResult where
  res : Int
  lengthOut : Option Int
  state : Engine
  recompiled : Bool
  searched : Bool
deriving DecidableEq

/-- The search phase of `FindText` (everything after the recompilation
block): reset `m_MatchPos`/`m_MatchLen`, clear the region, call
`onig_search` on the held handle, then classify the result.  `rb`/`re` are
the normalised range offsets; `rangeBegPtr <= rangeEndPtr` on contiguous
storage is `rb ≤ re`. -/
def findSearchPhase (srch : Searcher) (e : Engine) (call : SearchCall)
    (rb re : Int) (recompiled : Bool) : FindResult :=
  let e1 := { e with matchPos := -1, matchLen := 0, region := emptyRegion }
  match srch (e1.regExpr.getD 0) call with
  | .exc => ⟨-3, none, e1, recompiled, true⟩
  | .res r rgn =>
    let e2 := { e1 with region := rgn }
    if r < -1 then ⟨-3, none, e2, recompiled, true⟩
    else if 0 ≤ r ∧ rb ≤ re then
      let mp := rgn.begs.headD 0
      let e3 := { e2 with matchPos := mp, matchLen := rgn.ends.headD 0 - mp }
      ⟨e3.matchPos, some e3.matchLen, e3, recompiled, true⟩
    else ⟨e2.matchPos, some e2.matchLen, e2, recompiled, true⟩

/-- `OnigurumaRegExEngine::FindText`.  A null or empty pattern returns the
not-found sentinel `-1` with `*length = 0` before anything else happens.
Otherwise the pattern is translated, the options resolved, and the matcher
recompiled exactly when no compiled pattern is held, the stored options
differ, or the stored pattern text differs; compile failure returns `-2`
(`onig_new` stores no handle on failure), a compile-time exception also
returns `-2` but leaves `m_RegExpr` as the already-freed old pointer.
Then the search phase runs. -/
def findText (cmp : Compiler) (srch : Searcher) (e : Engine) (doc : Doc)
    (minPos maxPos : Int) (pattern : Option (List Char))
    (caseSensitive word wordStart : Bool) (searchFlags : Nat) : FindResult :=
  match pattern with
  | none => ⟨-1, some 0, e, false, false⟩
  | some pat =>
    if pat = [] then ⟨-1, some 0, e, false, false⟩
    else
      let spat := effPattern pat word wordStart doc.eolMode
      let opts := effOptions doc minPos maxPos caseSensitive searchFlags
      let rb := (normRange doc minPos maxPos).1
      let re := (normRange doc minPos maxPos).2
      let call := effCall doc minPos maxPos caseSensitive searchFlags
      if needsRecompile e doc minPos maxPos pat caseSensitive word wordStart searchFlags then
        let e1 := { e with regExprStrg := spat, cmplOptions := opts }
        let e2 := freeRegExpr e1
        match cmp spat opts with
        | .err _ => ⟨-2, none, { e2 with regExpr := none }, true, false⟩
        | .exc => ⟨-2, none, e2, true, false⟩
        | .ok =>
          findSearchPhase srch
            { e2 with regExpr := some e2.nextHandle, nextHandle := e2.nextHandle + 1 }
            call rb re true
      else findSearchPhase srch e call rb re false

/-! ### Helper lemmas -/

theorem charAt_ne_lt {s : List Char} {j : Nat} (h : charAt s j ≠ ch0) :
    j < s.length := by
  by_contra hj
  exact h (List.getD_eq_default _ _ (by omega))

/-- `SetSimpleOptions` computes one of four concrete bitsets: bit 0
(`IGNORECASE`) is the inverted case flag, bits 1/2 are set exactly under
dot-matches-all, bit 6 (`NEGATE_SINGLELINE`) is always set. -/
theorem setSimpleOptions_eq (eol : Nat) (cs ff : Bool) (sf : Nat) :
    setSimpleOptions eol cs ff sf =
      if sf.land SCFIND_DOT_MATCH_ALL ≠ 0 then (if cs then 70 else 71)
      else (if cs then 64 else 65) := by
  unfold setSimpleOptions optOn optOff ONIG_OPTION_DEFAULT ONIG_OPTION_NONE
    ONIG_OPTION_EXTEND ONIG_OPTION_SINGLELINE ONIG_OPTION_NEGATE_SINGLELINE
    ONIG_OPTION_FIND_LONGEST ONIG_SYN_OP_DOT_ANYCHAR ONIG_OPTION_MULTILINE
    ONIG_OPTION_IGNORECASE
  dsimp only
  split_ifs <;> rfl

theorem effOptions_testBit0 (doc : Doc) (mn mx : Int) (cs : Bool) (sf : Nat) :
    (effOptions doc mn mx cs sf).testBit 0 = !cs := by
  unfold effOptions
  dsimp only
  rw [optOn, optOn, Nat.testBit_lor, Nat.testBit_lor, setSimpleOptions_eq]
  have h1 : (if (normRange doc mn mx).1 > 0 then ONIG_OPTION_NOTBOL else ONIG_OPTION_NONE).testBit 0 = false := by
    split <;> decide
  have h2 : (if (normRange doc mn mx).2 < doc.len then ONIG_OPTION_NOTEOL else ONIG_OPTION_NONE).testBit 0 = false := by
    split <;> decide
  rw [h1, h2]
  by_cases hd : sf.land SCFIND_DOT_MATCH_ALL ≠ 0 <;> cases cs <;> simp [hd]

/-- Flipping the case-sensitivity flag always changes the effective
options. -/
theorem effOptions_case_ne (doc : Doc) (mn mx : Int) (cs : Bool) (sf : Nat) :
    effOptions doc mn mx cs sf ≠ effOptions doc mn mx (!cs) sf := by
  intro h
  have h1 := effOptions_testBit0 doc mn mx cs sf
  have h2 := effOptions_testBit0 doc mn mx (!cs) sf
  rw [h] at h1
  rw [h1] at h2
  cases cs <;> simp at h2

/-- The search phase never touches the compiled-pattern cache, the handle
ghosts or the substitution buffer, reports the `recompiled` flag it is
given and always reports `searched`. -/
theorem findSearchPhase_frame (srch : Searcher) (e : Engine)
    (call : SearchCall) (rb re : Int) (b : Bool) :
    (findSearchPhase srch e call rb re b).state.regExprStrg = e.regExprStrg
    ∧ (findSearchPhase srch e call rb re b).state.cmplOptions = e.cmplOptions
    ∧ (findSearchPhase srch e call rb re b).state.regExpr = e.regExpr
    ∧ (findSearchPhase srch e call rb re b).state.nextHandle = e.nextHandle
    ∧ (findSearchPhase srch e call rb re b).state.freed = e.freed
    ∧ (findSearchPhase srch e call rb re b).state.substBuffer = e.substBuffer
    ∧ (findSearchPhase srch e call rb re b).recompiled = b
    ∧ (findSearchPhase srch e call rb re b).searched = true := by
  unfold findSearchPhase
  dsimp only
  cases h : srch (e.regExpr.getD 0) call with
  | exc => simp [h]
  | res r rgn =>
    simp only [h]
    split_ifs <;> simp

/-- Two engines holding the same handle produce the same observable search
outcome (return value, reported length, match position/length, region). -/
theorem findSearchPhase_congr (srch : Searcher) (e1 e2 : Engine)
    (call : SearchCall) (rb re : Int) (b1 b2 : Bool)
    (h : e1.regExpr = e2.regExpr) :
    (findSearchPhase srch e1 call rb re b1).res = (findSearchPhase srch e2 call rb re b2).res
    ∧ (findSearchPhase srch e1 call rb re b1).lengthOut = (findSearchPhase srch e2 call rb re b2).lengthOut
    ∧ (findSearchPhase srch e1 call rb re b1).state.matchPos = (findSearchPhase srch e2 call rb re b2).state.matchPos
    ∧ (findSearchPhase srch e1 call rb re b1).state.matchLen = (findSearchPhase srch e2 call rb re b2).state.matchLen
    ∧ (findSearchPhase srch e1 call rb re b1).state.region = (findSearchPhase srch e2 call rb re b2).state.region := by
  unfold findSearchPhase
  dsimp only
  rw [h]
  cases h2 : srch (e2.regExpr.getD 0) call with
  | exc => simp [h2]
  | res r rgn =>
    simp only [h2]
    split_ifs <;> simp

/-! ### Concrete fixtures shared by witnesses and counterexamples

`docW` holds the bytes `zAB-CDz`; `rgnW` is a region with the whole match
`[1,6)`, group 1 `[1,3)` (`AB`) and group 2 `[4,6)` (`CD`). -/

def docW : Doc :=
  { len := 7, eolMode := SC_EOL_LF, moveOutside := fun p _ => p,
    bytes := ['z', 'A', 'B', '-', 'C', 'D', 'z'] }

def rgnW : OnigRegion := ⟨3, [1, 1, 4], [6, 3, 6]⟩

def engMatchW : Engine := { initialEngine with matchPos := 1, matchLen := 5, region := rgnW }

def ntW : NameTable := fun _ => -1

def cmpOkW : Compiler := fun _ _ => CompileOutcome.ok

def cmpErrW : Compiler := fun _ _ => CompileOutcome.err (-100)

def cmpExcW : Compiler := fun _ _ => CompileOutcome.exc

def srchFoundW : Searcher := fun _ _ => SearchOutcome.res 2 ⟨1, [2], [5]⟩

def srchMissW : Searcher := fun _ _ => SearchOutcome.res (-1) emptyRegion

/-- An engine currently holding a compiled handle for some other pattern. -/
def engHeldW : Engine :=
  { initialEngine with regExpr := some 0, nextHandle := 1, regExprStrg := ['o', 'l', 'd'] }

/-! ### Claims -/

/-- C3: `translateRegExpr` returns the pattern unchanged when neither flag
is set; with `wholeWord` or `wordStart` set it prepends `\b` (and appends
`\b` for `wholeWord`) and then replaces every `.` of the boundary-wrapped
pattern by `\w` as a blunt global per-byte substitution
(`globalSubstSpec`), hitting dots inside character classes and escapes
alike.  The translation is a total function — there is no error path. -/
theorem c3_translate_pattern (p : List Char) (ww ws : Bool) (eol : Nat) :
    (ww = false → ws = false → translateRegExpr p ww ws eol = p)
    ∧ ((ww || ws) = true →
        translateRegExpr p ww ws eol =
          globalSubstSpec '.' ['\\', 'w']
            (['\\', 'b'] ++ p ++ (if ww then ['\\', 'b'] else []))) := by
  constructor
  · intro h1 h2
    subst h1
    subst h2
    rfl
  · intro h
    unfold translateRegExpr
    dsimp only
    rw [if_pos h]
    exact replaceAll_single _ _ _

/-- Witness for C3 at concrete inputs: `a.[.]b` with `wholeWord` becomes
`\ba\w[\w]b\b` with both dots — including the one inside the character
class — bluntly replaced, and an unflagged pattern passes through. -/
theorem c3_translate_pattern_witness :
    ((true || false) = true ∧
      translateRegExpr ['a', '.', '[', '.', ']', 'b'] true false SC_EOL_LF =
        globalSubstSpec '.' ['\\', 'w']
          (['\\', 'b'] ++ ['a', '.', '[', '.', ']', 'b'] ++ (if true then ['\\', 'b'] else [])))
    ∧ (false = false → false = false →
        translateRegExpr ['a', '.', 'c'] false false SC_EOL_LF = ['a', '.', 'c']) :=
  ⟨⟨by decide, (c3_translate_pattern ['a', '.', '[', '.', ']', 'b'] true false SC_EOL_LF).2 (by decide)⟩,
    fun h1 h2 => (c3_translate_pattern ['a', '.', 'c'] false false SC_EOL_LF).1 h1 h2⟩

/-- C5: a null or empty pattern makes `FindText` return the not-found
sentinel `-1` with `*length = 0`, without compiling or searching and with
the engine state untouched; `-1` is distinct from the invalid-pattern
(`-2`) and internal-failure (`-3`) sentinels, so the outcome is not an
error. -/
theorem c5_empty_pattern_not_found (cmp : Compiler) (srch : Searcher)
    (e : Engine) (doc : Doc) (minPos maxPos : Int) (cs w ws : Bool) (sf : Nat) :
    findText cmp srch e doc minPos maxPos none cs w ws sf = ⟨-1, some 0, e, false, false⟩
    ∧ findText cmp srch e doc minPos maxPos (some []) cs w ws sf = ⟨-1, some 0, e, false, false⟩
    ∧ ((-1 : Int) ≠ -2 ∧ (-1 : Int) ≠ -3) := by
  refine ⟨rfl, ?_, by decide, by decide⟩
  unfold findText
  simp

/-- C6: with no successful match cached (`m_MatchPos < 0`),
`SubstituteByPosition` writes `-1` to the length slot, returns a null
pointer and leaves the engine (including the substitution buffer)
untouched — no replacement bytes are produced. -/
theorem c6_subst_no_prior_match (nt : NameTable) (e : Engine) (doc : Doc)
    (t : List Char) (li : Int) (h : e.matchPos < 0) :
    substituteByPosition nt e doc t li = ⟨none, -1, e⟩ := by
  unfold substituteByPosition
  rw [if_pos h]

/-- Witness for C6: a freshly constructed engine holds the mismatch
sentinel, so substitution fails as described. -/
theorem c6_subst_no_prior_match_witness :
    substituteByPosition ntW initialEngine docW ['$', '1'] 2 = ⟨none, -1, initialEngine⟩ :=
  c6_subst_no_prior_match ntW initialEngine docW ['$', '1'] 2 (by decide)

theorem freeRegExpr_fields (e : Engine) :
    (freeRegExpr e).regExprStrg = e.regExprStrg
    ∧ (freeRegExpr e).cmplOptions = e.cmplOptions
    ∧ (freeRegExpr e).regExpr = e.regExpr
    ∧ (freeRegExpr e).nextHandle = e.nextHandle
    ∧ (freeRegExpr e).matchPos = e.matchPos
    ∧ (freeRegExpr e).matchLen = e.matchLen
    ∧ (freeRegExpr e).region = e.region
    ∧ (freeRegExpr e).substBuffer = e.substBuffer := by
  unfold freeRegExpr
  cases he : e.regExpr <;> simp [he]

/-- After any `FindText` call with a non-empty pattern, the stored cache key
(`m_CmplOptions`, `m_RegExprStrg`) equals the effective options and the
effective pattern of that call — either it was just stored by the
recompilation block, or the cache-hit test certified it already matched. -/
theorem findText_stores_eff (cmp : Compiler) (srch : Searcher) (e : Engine)
    (doc : Doc) (mn mx : Int) (pat : List Char) (cs w ws : Bool) (sf : Nat)
    (hpat : pat ≠ []) :
    (findText cmp srch e doc mn mx (some pat) cs w ws sf).state.cmplOptions = effOptions doc mn mx cs sf
    ∧ (findText cmp srch e doc mn mx (some pat) cs w ws sf).state.regExprStrg = effPattern pat w ws doc.eolMode := by
  unfold findText
  dsimp only
  rw [if_neg hpat]
  by_cases hrc : needsRecompile e doc mn mx pat cs w ws sf
  · rw [if_pos hrc]
    cases hc : cmp (effPattern pat w ws doc.eolMode) (effOptions doc mn mx cs sf) with
    | err c =>
      simp only [hc]
      cases he : e.regExpr <;> simp [freeRegExpr, he]
    | exc =>
      simp only [hc]
      cases he : e.regExpr <;> simp [freeRegExpr, he]
    | ok =>
      simp only [hc]
      refine ⟨?_, ?_⟩
      · rw [(findSearchPhase_frame _ _ _ _ _ _).2.1]
        cases he : e.regExpr <;> simp [freeRegExpr, he]
      · rw [(findSearchPhase_frame _ _ _ _ _ _).1]
        cases he : e.regExpr <;> simp [freeRegExpr, he]
  · rw [if_neg hrc]
    unfold needsRecompile at hrc
    push_neg at hrc
    refine ⟨?_, ?_⟩
    · rw [(findSearchPhase_frame _ _ _ _ _ _).2.1]
      exact hrc.2.1
    · rw [(findSearchPhase_frame _ _ _ _ _ _).1]
      exact hrc.2.2

/-- After a `FindText` call with a non-empty pattern whose compilation (if
it was needed) succeeded, the engine holds a matcher handle. -/
theorem findText_holds_handle (cmp : Compiler) (srch : Searcher) (e : Engine)
    (doc : Doc) (mn mx : Int) (pat : List Char) (cs w ws : Bool) (sf : Nat)
    (hpat : pat ≠ [])
    (hok : cmp (effPattern pat w ws doc.eolMode) (effOptions doc mn mx cs sf) = CompileOutcome.ok) :
    (findText cmp srch e doc mn mx (some pat) cs w ws sf).state.regExpr ≠ none := by
  unfold findText
  dsimp only
  rw [if_neg hpat]
  by_cases hrc : needsRecompile e doc mn mx pat cs w ws sf
  · rw [if_pos hrc]
    simp only [hok]
    rw [(findSearchPhase_frame _ _ _ _ _ _).2.2.1]
    simp
  · rw [if_neg hrc]
    unfold needsRecompile at hrc
    push_neg at hrc
    rw [(findSearchPhase_frame _ _ _ _ _ _).2.2.1]
    exact hrc.1

/-- C4: with a non-empty pattern, `FindText` recompiles exactly when no
compiled pattern is held, the stored option bitset differs from the newly
resolved options, or the stored pattern text differs from the new effective
(translated) pattern.  In particular a second call with the same arguments
(whose first compile succeeded) skips recompilation, and flipping the
case-sensitivity flag between calls forces it (the `IGNORECASE` bit of the
resolved options changes). -/
theorem c4_recompile_iff (cmp : Compiler) (srch : Searcher) (e : Engine)
    (doc : Doc) (mn mx : Int) (pat : List Char) (cs w ws : Bool) (sf : Nat)
    (hpat : pat ≠ []) :
    ((findText cmp srch e doc mn mx (some pat) cs w ws sf).recompiled = true ↔
      (e.regExpr = none ∨ e.cmplOptions ≠ effOptions doc mn mx cs sf ∨
        e.regExprStrg ≠ effPattern pat w ws doc.eolMode))
    ∧ (cmp (effPattern pat w ws doc.eolMode) (effOptions doc mn mx cs sf) = CompileOutcome.ok →
        (findText cmp srch (findText cmp srch e doc mn mx (some pat) cs w ws sf).state
            doc mn mx (some pat) cs w ws sf).recompiled = false)
    ∧ ((findText cmp srch (findText cmp srch e doc mn mx (some pat) cs w ws sf).state
          doc mn mx (some pat) (!cs) w ws sf).recompiled = true) := by
  refine ⟨?_, ?_, ?_⟩
  · unfold findText
    dsimp only
    rw [if_neg hpat]
    by_cases hrc : needsRecompile e doc mn mx pat cs w ws sf
    · rw [if_pos hrc]
      unfold needsRecompile at hrc
      cases hc : cmp (effPattern pat w ws doc.eolMode) (effOptions doc mn mx cs sf) <;>
        simp only [hc]
      · rw [(findSearchPhase_frame _ _ _ _ _ _).2.2.2.2.2.2.1]
        simpa using hrc
      · simpa using hrc
      · simpa using hrc
    · rw [if_neg hrc]
      unfold needsRecompile at hrc
      rw [(findSearchPhase_frame _ _ _ _ _ _).2.2.2.2.2.2.1]
      simpa using hrc
  · intro hok
    have hst := findText_stores_eff cmp srch e doc mn mx pat cs w ws sf hpat
    have hh := findText_holds_handle cmp srch e doc mn mx pat cs w ws sf hpat hok
    conv_lhs => rw [findText]
    dsimp only
    rw [if_neg hpat]
    have hrc2 : ¬ needsRecompile (findText cmp srch e doc mn mx (some pat) cs w ws sf).state
        doc mn mx pat cs w ws sf := by
      unfold needsRecompile
      push_neg
      exact ⟨hh, hst.1, hst.2⟩
    rw [if_neg hrc2]
    exact (findSearchPhase_frame _ _ _ _ _ _).2.2.2.2.2.2.1
  · have hst := findText_stores_eff cmp srch e doc mn mx pat cs w ws sf hpat
    conv_lhs => rw [findText]
    dsimp only
    rw [if_neg hpat]
    have hrc2 : needsRecompile (findText cmp srch e doc mn mx (some pat) cs w ws sf).state
        doc mn mx pat (!cs) w ws sf := by
      unfold needsRecompile
      refine Or.inr (Or.inl ?_)
      rw [hst.1]
      exact effOptions_case_ne doc mn mx cs sf
    rw [if_pos hrc2]
    cases hc : cmp (effPattern pat w ws doc.eolMode) (effOptions doc mn mx (!cs) sf) <;>
        simp only [hc] <;>
      first
        | rfl
        | exact (findSearchPhase_frame _ _ _ _ _ _).2.2.2.2.2.2.1

/-- Witness for C4: on a fresh engine (no compiled pattern) the first call
recompiles; an identical second call with a successfully compiling oracle
does not; flipping case sensitivity afterwards recompiles again. -/
theorem c4_recompile_iff_witness :
    ((findText cmpOkW srchFoundW initialEngine docW 0 7 (some ['a', 'b']) true false false 0).recompiled = true)
    ∧ ((findText cmpOkW srchFoundW
          (findText cmpOkW srchFoundW initialEngine docW 0 7 (some ['a', 'b']) true false false 0).state
          docW 0 7 (some ['a', 'b']) true false false 0).recompiled = false)
    ∧ ((findText cmpOkW srchFoundW
          (findText cmpOkW srchFoundW initialEngine docW 0 7 (some ['a', 'b']) true false false 0).state
          docW 0 7 (some ['a', 'b']) (!true) false false 0).recompiled = true) := by
  have h := c4_recompile_iff cmpOkW srchFoundW initialEngine docW 0 7 ['a', 'b'] true false false 0 (by decide)
  refine ⟨h.1.mpr (Or.inl (by decide)), h.2.1 (by decide), h.2.2⟩

/-! ### Step lemmas for the backreference scan and the escape pre-expansion

Each lemma captures one iteration of the corresponding C++ loop at an
arbitrary index, with the branch conditions as hypotheses. -/

theorem substLoop_done (doc : Doc) (rgn : OnigRegion) (nameTab : NameTable)
    (s : List Char) (j : Nat) (acc : List Char) (h : s.length ≤ j) :
    substLoop doc rgn nameTab s j acc = acc := by
  rw [substLoop, dif_neg (by omega)]

theorem substLoop_digit_step (doc : Doc) (rgn : OnigRegion) (nameTab : NameTable)
    (s : List Char) (j : Nat) (acc : List Char)
    (hc : charAt s j = '$' ∨ charAt s j = '\\')
    (hd : isDigitCh (charAt s (j + 1)) = true) :
    substLoop doc rgn nameTab s j acc =
      substLoop doc rgn nameTab s
        (j + (if isDigitCh (charAt s (j + 2)) && decide (rgn.numRegs > 10) then 2 else 1) + 1)
        (acc ++
          (if (if isDigitCh (charAt s (j + 2)) && decide (rgn.numRegs > 10) then
                ((charAt s (j + 1)).toNat - '0'.toNat) * 10 + ((charAt s (j + 2)).toNat - '0'.toNat)
              else (charAt s (j + 1)).toNat - '0'.toNat) < rgn.numRegs then
            groupBytes doc rgn
              (if isDigitCh (charAt s (j + 2)) && decide (rgn.numRegs > 10) then
                ((charAt s (j + 1)).toNat - '0'.toNat) * 10 + ((charAt s (j + 2)).toNat - '0'.toNat)
              else (charAt s (j + 1)).toNat - '0'.toNat)
          else [])) := by
  have hj : j < s.length := charAt_ne_lt (by rcases hc with h | h <;> rw [h] <;> decide)
  rw [substLoop, dif_pos hj]
  dsimp only
  rw [if_pos hc, if_pos hd]

theorem substLoop_dollar_plain_step (doc : Doc) (rgn : OnigRegion)
    (nameTab : NameTable) (s : List Char) (j : Nat) (acc : List Char)
    (hc : charAt s j = '$')
    (hd : isDigitCh (charAt s (j + 1)) = false)
    (hns : nameStart s j = 0) :
    substLoop doc rgn nameTab s j acc =
      substLoop doc rgn nameTab s (j + 1) (acc ++ [charAt s j]) := by
  have hj : j < s.length := charAt_ne_lt (by rw [hc]; decide)
  rw [substLoop, dif_pos hj]
  dsimp only
  rw [if_pos (Or.inl hc), if_neg (by rw [hd]; exact Bool.false_ne_true), if_pos hc,
    dif_neg (by rw [hns]; omega)]

theorem substLoop_esc_step (doc : Doc) (rgn : OnigRegion) (nameTab : NameTable)
    (s : List Char) (j : Nat) (acc : List Char)
    (hc : charAt s j = '\\')
    (hd : isDigitCh (charAt s (j + 1)) = false)
    (he : charAt s (j + 1) = '$' ∨ charAt s (j + 1) = '\\') :
    substLoop doc rgn nameTab s j acc =
      substLoop doc rgn nameTab s (j + 2) (acc ++ [charAt s (j + 1)]) := by
  have hj : j < s.length := charAt_ne_lt (by rw [hc]; decide)
  rw [substLoop, dif_pos hj]
  dsimp only
  rw [if_pos (Or.inr hc), if_neg (by rw [hd]; exact Bool.false_ne_true),
    if_neg (by rw [hc]; decide), if_pos he]

theorem substLoop_lit_step (doc : Doc) (rgn : OnigRegion) (nameTab : NameTable)
    (s : List Char) (j : Nat) (acc : List Char)
    (hj : j < s.length)
    (hc : ¬(charAt s j = '$' ∨ charAt s j = '\\')) :
    substLoop doc rgn nameTab s j acc =
      substLoop doc rgn nameTab s (j + 1) (acc ++ [charAt s j]) := by
  rw [substLoop, dif_pos hj]
  dsimp only
  rw [if_neg hc]

theorem convGo_done (s : List Char) (i : Nat) (acc : List Char)
    (h : s.length ≤ i) : convGo s i acc = acc := by
  rw [convGo, dif_neg (by omega)]

theorem convGo_lit_step (s : List Char) (i : Nat) (acc : List Char)
    (hi : i < s.length) (hc : ¬ charAt s i = '\\') :
    convGo s i acc = convGo s (i + 1) (acc ++ [charAt s i]) := by
  rw [convGo, dif_pos hi]
  dsimp only
  rw [if_neg hc]

theorem convGo_digit_step (s : List Char) (i : Nat) (acc : List Char)
    (hc : charAt s i = '\\')
    (h1 : '1' ≤ charAt s (i + 1)) (h9 : charAt s (i + 1) ≤ '9') :
    convGo s i acc = convGo s (i + 2) (acc ++ ['$', charAt s (i + 1)]) := by
  have hi : i < s.length := charAt_ne_lt (by rw [hc]; decide)
  rw [convGo, dif_pos hi]
  dsimp only
  rw [if_pos hc, if_pos ⟨h1, h9⟩]

theorem convGo_esc_a (s : List Char) (i : Nat) (acc : List Char)
    (hc : charAt s i = '\\') (hch : charAt s (i + 1) = 'a') :
    convGo s i acc = convGo s (i + 2) (acc ++ [Char.ofNat 7]) := by
  have hi : i < s.length := charAt_ne_lt (by rw [hc]; decide)
  rw [convGo, dif_pos hi]
  dsimp only
  rw [hc, hch]
  rw [if_pos rfl, if_neg (by decide), if_pos rfl]

theorem convGo_esc_b (s : List Char) (i : Nat) (acc : List Char)
    (hc : charAt s i = '\\') (hch : charAt s (i + 1) = 'b') :
    convGo s i acc = convGo s (i + 2) (acc ++ [Char.ofNat 27]) := by
  have hi : i < s.length := charAt_ne_lt (by rw [hc]; decide)
  rw [convGo, dif_pos hi]
  dsimp only
  rw [hc, hch]
  rw [if_pos rfl, if_neg (by decide), if_neg (by decide), if_pos rfl]

theorem convGo_esc_f (s : List Char) (i : Nat) (acc : List Char)
    (hc : charAt s i = '\\') (hch : charAt s (i + 1) = 'f') :
    convGo s i acc = convGo s (i + 2) (acc ++ [Char.ofNat 12]) := by
  have hi : i < s.length := charAt_ne_lt (by rw [hc]; decide)
  rw [convGo, dif_pos hi]
  dsimp only
  rw [hc, hch]
  rw [if_pos rfl, if_neg (by decide), if_neg (by decide), if_neg (by decide), if_pos rfl]

theorem convGo_esc_n (s : List Char) (i : Nat) (acc : List Char)
    (hc : charAt s i = '\\') (hch : charAt s (i + 1) = 'n') :
    convGo s i acc = convGo s (i + 2) (acc ++ [Char.ofNat 10]) := by
  have hi : i < s.length := charAt_ne_lt (by rw [hc]; decide)
  rw [convGo, dif_pos hi]
  dsimp only
  rw [hc, hch]
  rw [if_pos rfl, if_neg (by decide), if_neg (by decide), if_neg (by decide),
    if_neg (by decide), if_pos rfl]

theorem convGo_esc_r (s : List Char) (i : Nat) (acc : List Char)
    (hc : charAt s i = '\\') (hch : charAt s (i + 1) = 'r') :
    convGo s i acc = convGo s (i + 2) (acc ++ [Char.ofNat 13]) := by
  have hi : i < s.length := charAt_ne_lt (by rw [hc]; decide)
  rw [convGo, dif_pos hi]
  dsimp only
  rw [hc, hch]
  rw [if_pos rfl, if_neg (by decide), if_neg (by decide), if_neg (by decide),
    if_neg (by decide), if_neg (by decide), if_pos rfl]

theorem convGo_esc_t (s : List Char) (i : Nat) (acc : List Char)
    (hc : charAt s i = '\\') (hch : charAt s (i + 1) = 't') :
    convGo s i acc = convGo s (i + 2) (acc ++ [Char.ofNat 9]) := by
  have hi : i < s.length := charAt_ne_lt (by rw [hc]; decide)
  rw [convGo, dif_pos hi]
  dsimp only
  rw [hc, hch]
  rw [if_pos rfl, if_neg (by decide), if_neg (by decide), if_neg (by decide),
    if_neg (by decide), if_neg (by decide), if_neg (by decide), if_pos rfl]

theorem convGo_esc_v (s : List Char) (i : Nat) (acc : List Char)
    (hc : charAt s i = '\\') (hch : charAt s (i + 1) = 'v') :
    convGo s i acc = convGo s (i + 2) (acc ++ [Char.ofNat 11]) := by
  have hi : i < s.length := charAt_ne_lt (by rw [hc]; decide)
  rw [convGo, dif_pos hi]
  dsimp only
  rw [hc, hch]
  rw [if_pos rfl, if_neg (by decide), if_neg (by decide), if_neg (by decide),
    if_neg (by decide), if_neg (by decide), if_neg (by decide), if_neg (by decide),
    if_pos rfl]

theorem convGo_esc_bs (s : List Char) (i : Nat) (acc : List Char)
    (hc : charAt s i = '\\') (hch : charAt s (i + 1) = '\\') :
    convGo s i acc = convGo s (i + 2) (acc ++ ['\\', '\\']) := by
  have hi : i < s.length := charAt_ne_lt (by rw [hc]; decide)
  rw [convGo, dif_pos hi]
  dsimp only
  rw [hc, hch]
  rw [if_pos rfl, if_neg (by decide), if_neg (by decide), if_neg (by decide),
    if_neg (by decide), if_neg (by decide), if_neg (by decide), if_neg (by decide),
    if_neg (by decide), if_pos rfl]

theorem convGo_hex_step (s : List Char) (i : Nat) (acc : List Char)
    (hc : charAt s i = '\\')
    (hxu : charAt s (i + 1) = 'x' ∨ charAt s (i + 1) = 'u') :
    convGo s i acc =
      convGo s ((hexScan s (i + 2) (decide (charAt s (i + 1) = 'x'))).2 + 1)
        (acc ++ hexPush (hexScan s (i + 2) (decide (charAt s (i + 1) = 'x'))).1 (charAt s (i + 1))) := by
  have hi : i < s.length := charAt_ne_lt (by rw [hc]; decide)
  rw [convGo, dif_pos hi]
  dsimp only
  rcases hxu with hch | hch <;> rw [hc, hch] <;>
    rw [if_pos rfl, if_neg (by decide), if_neg (by decide), if_neg (by decide),
      if_neg (by decide), if_neg (by decide), if_neg (by decide), if_neg (by decide),
      if_neg (by decide), if_neg (by decide), if_pos (by decide)]

theorem convGo_default_step (s : List Char) (i : Nat) (acc : List Char)
    (hc : charAt s i = '\\')
    (hd : ¬('1' ≤ charAt s (i + 1) ∧ charAt s (i + 1) ≤ '9'))
    (ha : charAt s (i + 1) ≠ 'a') (hb : charAt s (i + 1) ≠ 'b')
    (hf : charAt s (i + 1) ≠ 'f') (hn : charAt s (i + 1) ≠ 'n')
    (hr : charAt s (i + 1) ≠ 'r') (ht : charAt s (i + 1) ≠ 't')
    (hv : charAt s (i + 1) ≠ 'v') (hbs : charAt s (i + 1) ≠ '\\')
    (hxu : ¬(charAt s (i + 1) = 'x' ∨ charAt s (i + 1) = 'u')) :
    convGo s i acc = convGo s (i + 2) (acc ++ ['\\', charAt s (i + 1)]) := by
  have hi : i < s.length := charAt_ne_lt (by rw [hc]; decide)
  rw [convGo, dif_pos hi]
  dsimp only
  rw [if_pos hc, if_neg hd, if_neg ha, if_neg hb, if_neg hf, if_neg hn, if_neg hr,
    if_neg ht, if_neg hv, if_neg hbs, if_neg hxu]

theorem hexScan_invalid (s : List Char) (p : Nat) (b : Bool)
    (h : getHexDigit (charAt s p) < 0) : hexScan s p b = (0, p) := by
  rw [hexScan]
  dsimp only
  rw [if_pos h]

theorem hexScan_one (s : List Char) (p : Nat) (b : Bool)
    (h1 : 0 ≤ getHexDigit (charAt s p))
    (h2 : getHexDigit (charAt s (p + 1)) < 0) :
    hexScan s p b = (getHexDigit (charAt s p), p + 1) := by
  rw [hexScan]
  dsimp only
  rw [if_neg (by omega), if_pos h2]

theorem hexScan_two_short (s : List Char) (p : Nat)
    (h1 : 0 ≤ getHexDigit (charAt s p))
    (h2 : 0 ≤ getHexDigit (charAt s (p + 1))) :
    hexScan s p true =
      (getHexDigit (charAt s p) * 16 + getHexDigit (charAt s (p + 1)), p + 2) := by
  rw [hexScan]
  dsimp only
  rw [if_neg (by omega), if_neg (by omega), if_pos rfl]

theorem hexScan_two_long (s : List Char) (p : Nat)
    (h1 : 0 ≤ getHexDigit (charAt s p))
    (h2 : 0 ≤ getHexDigit (charAt s (p + 1)))
    (h3 : getHexDigit (charAt s (p + 2)) < 0) :
    hexScan s p false =
      (getHexDigit (charAt s p) * 16 + getHexDigit (charAt s (p + 1)), p + 2) := by
  rw [hexScan]
  dsimp only
  rw [if_neg (by omega), if_neg (by omega), if_neg (by decide), if_pos h3]

theorem hexScan_three (s : List Char) (p : Nat)
    (h1 : 0 ≤ getHexDigit (charAt s p))
    (h2 : 0 ≤ getHexDigit (charAt s (p + 1)))
    (h3 : 0 ≤ getHexDigit (charAt s (p + 2)))
    (h4 : getHexDigit (charAt s (p + 3)) < 0) :
    hexScan s p false =
      ((getHexDigit (charAt s p) * 16 + getHexDigit (charAt s (p + 1))) * 16 +
        getHexDigit (charAt s (p + 2)), p + 3) := by
  rw [hexScan]
  dsimp only
  rw [if_neg (by omega), if_neg (by omega), if_neg (by decide), if_neg (by omega),
    if_pos h4]

theorem hexScan_four (s : List Char) (p : Nat)
    (h1 : 0 ≤ getHexDigit (charAt s p))
    (h2 : 0 ≤ getHexDigit (charAt s (p + 1)))
    (h3 : 0 ≤ getHexDigit (charAt s (p + 2)))
    (h4 : 0 ≤ getHexDigit (charAt s (p + 3))) :
    hexScan s p false =
      (((getHexDigit (charAt s p) * 16 + getHexDigit (charAt s (p + 1))) * 16 +
        getHexDigit (charAt s (p + 2))) * 16 + getHexDigit (charAt s (p + 3)), p + 4) := by
  rw [hexScan]
  dsimp only
  rw [if_neg (by omega), if_neg (by omega), if_neg (by decide), if_neg (by omega),
    if_neg (by omega)]

/-! ### Concrete evaluations of the template pipeline -/

theorem convRepl_n_eq : convertReplExpr ['\\', 'n'] = [Char.ofNat 10] := by
  rw [convertReplExpr, convGo_esc_n ['\\', 'n'] 0 [] (by decide) (by decide)]
  show convGo ['\\', 'n'] 2 [Char.ofNat 10] = [Char.ofNat 10]
  exact convGo_done _ _ _ (by decide)

theorem convRepl_b_eq : convertReplExpr ['\\', 'b'] = [Char.ofNat 27] := by
  rw [convertReplExpr, convGo_esc_b ['\\', 'b'] 0 [] (by decide) (by decide)]
  show convGo ['\\', 'b'] 2 [Char.ofNat 27] = [Char.ofNat 27]
  exact convGo_done _ _ _ (by decide)

theorem convRepl_digit_eq : convertReplExpr ['\\', '1'] = ['$', '1'] := by
  rw [convertReplExpr, convGo_digit_step ['\\', '1'] 0 [] (by decide) (by decide) (by decide)]
  show convGo ['\\', '1'] 2 ['$', '1'] = ['$', '1']
  exact convGo_done _ _ _ (by decide)

theorem convRepl_bs_eq : convertReplExpr ['\\', '\\'] = ['\\', '\\'] := by
  rw [convertReplExpr, convGo_esc_bs ['\\', '\\'] 0 [] (by decide) (by decide)]
  show convGo ['\\', '\\'] 2 ['\\', '\\'] = ['\\', '\\']
  exact convGo_done _ _ _ (by decide)

theorem convRepl_q_eq : convertReplExpr ['\\', 'q'] = ['\\', 'q'] := by
  rw [convertReplExpr, convGo_default_step ['\\', 'q'] 0 [] (by decide) (by decide)
    (by decide) (by decide) (by decide) (by decide) (by decide) (by decide) (by decide)
    (by decide) (by decide)]
  show convGo ['\\', 'q'] 2 ['\\', 'q'] = ['\\', 'q']
  exact convGo_done _ _ _ (by decide)

/-- `\x41Z`: both hex digits are decoded to `'A'` — and the following `Z` is
consumed and dropped by the extra loop increment. -/
theorem convRepl_x41Z_eq : convertReplExpr ['\\', 'x', '4', '1', 'Z'] = [Char.ofNat 65] := by
  rw [convertReplExpr, convGo_hex_step ['\\', 'x', '4', '1', 'Z'] 0 [] (by decide)
    (Or.inl (by decide))]
  show convGo ['\\', 'x', '4', '1', 'Z'] 5 [Char.ofNat 65] = [Char.ofNat 65]
  exact convGo_done _ _ _ (by decide)

/-- `\x5G`: a single hex digit is decoded (not "exactly two"), and the
examined `G` is dropped. -/
theorem convRepl_x5G_eq : convertReplExpr ['\\', 'x', '5', 'G'] = [Char.ofNat 5] := by
  rw [convertReplExpr, convGo_hex_step ['\\', 'x', '5', 'G'] 0 [] (by decide)
    (Or.inl (by decide))]
  show convGo ['\\', 'x', '5', 'G'] 4 [Char.ofNat 5] = [Char.ofNat 5]
  exact convGo_done _ _ _ (by decide)

/-- `é`: the decoded value `0xE9` needs a two-byte UTF-8 encoding,
which does not fit the 2-byte conversion buffer — a single NUL byte is
emitted instead of the UTF-8 bytes `0xC3 0xA9`. -/
theorem convRepl_u00e9_eq : convertReplExpr ['\\', 'u', '0', '0', 'e', '9'] = [Char.ofNat 0] := by
  rw [convertReplExpr, convGo_hex_step ['\\', 'u', '0', '0', 'e', '9'] 0 [] (by decide)
    (Or.inr (by decide))]
  show convGo ['\\', 'u', '0', '0', 'e', '9'] 7 [Char.ofNat 0] = [Char.ofNat 0]
  exact convGo_done _ _ _ (by decide)

theorem convRepl_id_brackets :
    convertReplExpr ['[', '$', '1', '-', '$', '2', ']'] = ['[', '$', '1', '-', '$', '2', ']'] := by
  rw [convertReplExpr, convGo_lit_step _ 0 [] (by decide) (by decide)]
  show convGo ['[', '$', '1', '-', '$', '2', ']'] 1 ['['] = _
  rw [convGo_lit_step _ 1 _ (by decide) (by decide)]
  show convGo ['[', '$', '1', '-', '$', '2', ']'] 2 ['[', '$'] = _
  rw [convGo_lit_step _ 2 _ (by decide) (by decide)]
  show convGo ['[', '$', '1', '-', '$', '2', ']'] 3 ['[', '$', '1'] = _
  rw [convGo_lit_step _ 3 _ (by decide) (by decide)]
  show convGo ['[', '$', '1', '-', '$', '2', ']'] 4 ['[', '$', '1', '-'] = _
  rw [convGo_lit_step _ 4 _ (by decide) (by decide)]
  show convGo ['[', '$', '1', '-', '$', '2', ']'] 5 ['[', '$', '1', '-', '$'] = _
  rw [convGo_lit_step _ 5 _ (by decide) (by decide)]
  show convGo ['[', '$', '1', '-', '$', '2', ']'] 6 ['[', '$', '1', '-', '$', '2'] = _
  rw [convGo_lit_step _ 6 _ (by decide) (by decide)]
  show convGo ['[', '$', '1', '-', '$', '2', ']'] 7 ['[', '$', '1', '-', '$', '2', ']'] = _
  exact convGo_done _ _ _ (by decide)

theorem convRepl_id_dollars : convertReplExpr ['$', '$'] = ['$', '$'] := by
  rw [convertReplExpr, convGo_lit_step _ 0 [] (by decide) (by decide)]
  show convGo ['$', '$'] 1 ['$'] = _
  rw [convGo_lit_step _ 1 _ (by decide) (by decide)]
  show convGo ['$', '$'] 2 ['$', '$'] = _
  exact convGo_done _ _ _ (by decide)

theorem convRepl_escdollar : convertReplExpr ['\\', '$'] = ['\\', '$'] := by
  rw [convertReplExpr, convGo_default_step ['\\', '$'] 0 [] (by decide) (by decide)
    (by decide) (by decide) (by decide) (by decide) (by decide) (by decide) (by decide)
    (by decide) (by decide)]
  show convGo ['\\', '$'] 2 ['\\', '$'] = ['\\', '$']
  exact convGo_done _ _ _ (by decide)

/-- The `[$1-$2]` template against the cached two-group match of `docW`
(`AB` and `CD`) expands to `[AB-CD]`. -/
theorem substW_groups_full :
    substituteByPosition ntW engMatchW docW ['[', '$', '1', '-', '$', '2', ']'] 7 =
      ⟨some ['[', 'A', 'B', '-', 'C', 'D', ']'], 7,
        { engMatchW with substBuffer := ['[', 'A', 'B', '-', 'C', 'D', ']'] }⟩ := by
  rw [substituteByPosition, if_neg (by decide)]
  dsimp only
  have hcv : convertReplExpr (List.take (Int.toNat 7) ['[', '$', '1', '-', '$', '2', ']']) =
      ['[', '$', '1', '-', '$', '2', ']'] := by
    show convertReplExpr ['[', '$', '1', '-', '$', '2', ']'] = _
    exact convRepl_id_brackets
  rw [hcv]
  have hsl : substLoop docW engMatchW.region ntW ['[', '$', '1', '-', '$', '2', ']'] 0 [] =
      ['[', 'A', 'B', '-', 'C', 'D', ']'] := by
    show substLoop docW rgnW ntW _ 0 [] = _
    rw [substLoop_lit_step _ _ _ _ 0 [] (by decide) (by decide)]
    show substLoop docW rgnW ntW _ 1 ['['] = _
    rw [substLoop_digit_step _ _ _ _ 1 _ (Or.inl (by decide)) (by decide)]
    show substLoop docW rgnW ntW _ 3 ['[', 'A', 'B'] = _
    rw [substLoop_lit_step _ _ _ _ 3 _ (by decide) (by decide)]
    show substLoop docW rgnW ntW _ 4 ['[', 'A', 'B', '-'] = _
    rw [substLoop_digit_step _ _ _ _ 4 _ (Or.inl (by decide)) (by decide)]
    show substLoop docW rgnW ntW _ 6 ['[', 'A', 'B', '-', 'C', 'D'] = _
    rw [substLoop_lit_step _ _ _ _ 6 _ (by decide) (by decide)]
    show substLoop docW rgnW ntW _ 7 ['[', 'A', 'B', '-', 'C', 'D', ']'] = _
    exact substLoop_done _ _ _ _ _ _ (by decide)
  rw [hsl]
  exact rfl

/-- The template `$$` expands to two literal dollars: the first `'$'` takes
the named-group branch (`k = 0`, nothing replaced) and is copied through,
and so is the second. -/
theorem substW_dollars_full :
    substituteByPosition ntW engMatchW docW ['$', '$'] 2 =
      ⟨some ['$', '$'], 2, { engMatchW with substBuffer := ['$', '$'] }⟩ := by
  rw [substituteByPosition, if_neg (by decide)]
  dsimp only
  have hcv : convertReplExpr (List.take (Int.toNat 2) ['$', '$']) = ['$', '$'] := by
    show convertReplExpr ['$', '$'] = _
    exact convRepl_id_dollars
  rw [hcv]
  have hsl : substLoop docW engMatchW.region ntW ['$', '$'] 0 [] = ['$', '$'] := by
    show substLoop docW rgnW ntW _ 0 [] = _
    rw [substLoop_dollar_plain_step _ _ _ _ 0 [] (by decide) (by decide) (by decide)]
    show substLoop docW rgnW ntW _ 1 ['$'] = _
    rw [substLoop_dollar_plain_step _ _ _ _ 1 _ (by decide) (by decide) (by decide)]
    show substLoop docW rgnW ntW _ 2 ['$', '$'] = _
    exact substLoop_done _ _ _ _ _ _ (by decide)
  rw [hsl]
  exact rfl

/-- The template `\$` (escaped dollar) expands to one literal dollar. -/
theorem substW_escdollar_full :
    substituteByPosition ntW engMatchW docW ['\\', '$'] 2 =
      ⟨some ['$'], 1, { engMatchW with substBuffer := ['$'] }⟩ := by
  rw [substituteByPosition, if_neg (by decide)]
  dsimp only
  have hcv : convertReplExpr (List.take (Int.toNat 2) ['\\', '$']) = ['\\', '$'] := by
    show convertReplExpr ['\\', '$'] = _
    exact convRepl_escdollar
  rw [hcv]
  have hsl : substLoop docW engMatchW.region ntW ['\\', '$'] 0 [] = ['$'] := by
    show substLoop docW rgnW ntW _ 0 [] = _
    rw [substLoop_esc_step _ _ _ _ 0 [] (by decide) (by decide) (Or.inl (by decide))]
    show substLoop docW rgnW ntW _ 2 ['$'] = _
    exact substLoop_done _ _ _ _ _ _ (by decide)
  rw [hsl]
  exact rfl

/-- The template `$5` against a three-register match: the reference is out
of range, so the token contributes nothing. -/
theorem substW_outofrange_full :
    substituteByPosition ntW engMatchW docW ['$', '5'] 2 =
      ⟨some [], 0, { engMatchW with substBuffer := [] }⟩ := by
  rw [substituteByPosition, if_neg (by decide)]
  dsimp only
  have hcv : convertReplExpr (List.take (Int.toNat 2) ['$', '5']) = ['$', '5'] := by
    show convertReplExpr ['$', '5'] = _
    rw [convertReplExpr, convGo_lit_step _ 0 [] (by decide) (by decide)]
    show convGo ['$', '5'] 1 ['$'] = _
    rw [convGo_lit_step _ 1 _ (by decide) (by decide)]
    show convGo ['$', '5'] 2 ['$', '5'] = _
    exact convGo_done _ _ _ (by decide)
  rw [hcv]
  have hsl : substLoop docW engMatchW.region ntW ['$', '5'] 0 [] = [] := by
    show substLoop docW rgnW ntW _ 0 [] = _
    rw [substLoop_digit_step _ _ _ _ 0 [] (Or.inl (by decide)) (by decide)]
    show substLoop docW rgnW ntW _ 2 [] = _
    exact substLoop_done _ _ _ _ _ _ (by decide)
  rw [hsl]
  exact rfl

theorem hexPush_cases (v : Int) (c : Char) :
    (v = 0 → hexPush v c = [c])
    ∧ (v ≠ 0 → v < 128 → hexPush v c = [Char.ofNat v.toNat])
    ∧ (v ≠ 0 → 128 ≤ v → hexPush v c = [ch0]) := by
  unfold hexPush wcEnc
  exact ⟨fun h => by rw [if_pos h],
    fun h hl => by rw [if_neg h, if_pos hl],
    fun h hg => by rw [if_neg h, if_neg (by omega)]⟩

/-- C7 (amended): during backreference expansion a `$` or `\` followed by a
digit consumes two digits exactly when a second digit follows and the match
region holds more than 10 groups (otherwise one digit); an in-range group
reference appends that group's document byte range, an out-of-range one
silently contributes nothing, and scanning continues after the consumed
digits.  `\$` and `\\` collapse to a single literal `$` / `\`; a `$` that
starts no group reference — in particular the first `$` of `$$` — is copied
through literally, so `$$` yields two dollars, not one.  The concrete
conjuncts run the full substitution: `[$1-$2]` gives `[AB-CD]`, `$5` (out
of range among 3 registers) gives the empty expansion, `\$` gives `$`, and
`$$` gives `$$`. -/
theorem c7_backref_expansion :
    (∀ (doc : Doc) (rgn : OnigRegion) (nameTab : NameTable) (s : List Char) (j : Nat) (acc : List Char),
      (charAt s j = '$' ∨ charAt s j = '\\') →
      isDigitCh (charAt s (j + 1)) = true →
      substLoop doc rgn nameTab s j acc =
        substLoop doc rgn nameTab s
          (j + (if isDigitCh (charAt s (j + 2)) && decide (rgn.numRegs > 10) then 2 else 1) + 1)
          (acc ++
            (if (if isDigitCh (charAt s (j + 2)) && decide (rgn.numRegs > 10) then
                  ((charAt s (j + 1)).toNat - '0'.toNat) * 10 + ((charAt s (j + 2)).toNat - '0'.toNat)
                else (charAt s (j + 1)).toNat - '0'.toNat) < rgn.numRegs then
              groupBytes doc rgn
                (if isDigitCh (charAt s (j + 2)) && decide (rgn.numRegs > 10) then
                  ((charAt s (j + 1)).toNat - '0'.toNat) * 10 + ((charAt s (j + 2)).toNat - '0'.toNat)
                else (charAt s (j + 1)).toNat - '0'.toNat)
            else [])))
    ∧ (∀ (doc : Doc) (rgn : OnigRegion) (nameTab : NameTable) (s : List Char) (j : Nat) (acc : List Char),
      charAt s j = '\\' →
      isDigitCh (charAt s (j + 1)) = false →
      (charAt s (j + 1) = '$' ∨ charAt s (j + 1) = '\\') →
      substLoop doc rgn nameTab s j acc =
        substLoop doc rgn nameTab s (j + 2) (acc ++ [charAt s (j + 1)]))
    ∧ (∀ (doc : Doc) (rgn : OnigRegion) (nameTab : NameTable) (s : List Char) (j : Nat) (acc : List Char),
      charAt s j = '$' →
      isDigitCh (charAt s (j + 1)) = false →
      nameStart s j = 0 →
      substLoop doc rgn nameTab s j acc =
        substLoop doc rgn nameTab s (j + 1) (acc ++ [charAt s j]))
    ∧ (substituteByPosition ntW engMatchW docW ['[', '$', '1', '-', '$', '2', ']'] 7).res =
        some ['[', 'A', 'B', '-', 'C', 'D', ']']
    ∧ (substituteByPosition ntW engMatchW docW ['$', '5'] 2).res = some []
    ∧ (substituteByPosition ntW engMatchW docW ['\\', '$'] 2).res = some ['$']
    ∧ (substituteByPosition ntW engMatchW docW ['$', '$'] 2).res = some ['$', '$'] := by
  refine ⟨substLoop_digit_step, substLoop_esc_step, substLoop_dollar_plain_step, ?_, ?_, ?_, ?_⟩
  · rw [substW_groups_full]
  · rw [substW_outofrange_full]
  · rw [substW_escdollar_full]
  · rw [substW_dollars_full]

/-- Witness for C7: one digit-reference step at a concrete position, with
its hypotheses discharged by evaluation. -/
theorem c7_backref_expansion_witness :
    substLoop docW rgnW ntW ['$', '1'] 0 [] =
      substLoop docW rgnW ntW ['$', '1']
        (0 + (if isDigitCh (charAt ['$', '1'] (0 + 2)) && decide (rgnW.numRegs > 10) then 2 else 1) + 1)
        ([] ++
          (if (if isDigitCh (charAt ['$', '1'] (0 + 2)) && decide (rgnW.numRegs > 10) then
                ((charAt ['$', '1'] (0 + 1)).toNat - '0'.toNat) * 10 + ((charAt ['$', '1'] (0 + 2)).toNat - '0'.toNat)
              else (charAt ['$', '1'] (0 + 1)).toNat - '0'.toNat) < rgnW.numRegs then
            groupBytes docW rgnW
              (if isDigitCh (charAt ['$', '1'] (0 + 2)) && decide (rgnW.numRegs > 10) then
                ((charAt ['$', '1'] (0 + 1)).toNat - '0'.toNat) * 10 + ((charAt ['$', '1'] (0 + 2)).toNat - '0'.toNat)
              else (charAt ['$', '1'] (0 + 1)).toNat - '0'.toNat)
          else [])) :=
  c7_backref_expansion.1 docW rgnW ntW ['$', '1'] 0 [] (Or.inl (by decide)) (by decide)

/-- C7 counterexample to the claim as stated: the template `$$` expands to
two literal dollars, not to a single one — only backslash-escaped `\$` (and
`\\`) collapse. -/
theorem c7_dollar_dollar_cx :
    (substituteByPosition ntW engMatchW docW ['$', '$'] 2).res = some ['$', '$']
    ∧ (some ['$', '$'] : Option (List Char)) ≠ some ['$'] := by
  exact ⟨by rw [substW_dollars_full], by decide⟩

/-- C8 (amended): the escape pre-expansion rewrites `\1`..`\9` to `$1`..`$9`;
maps `\a \f \n \r \t \v` to their control bytes but `\b` to the escape byte
`0x1B` (not backspace); keeps `\\` doubled; for `\x`/`\u` consumes greedily
up to two / four hex digits and therafter the loop increment additionally
drops the character examined right after the token; the decoded value is
emitted as a single byte when below `0x80`, as a single NUL byte when
`0x80` or above (the undersized 2-byte conversion buffer makes the encoding
fail), and a decoded value of zero — or no valid leading hex digit — falls
back to the bare letter with the backslash dropped; any other
backslash-letter pair passes through unchanged including the backslash. -/
theorem c8_escape_preexpansion :
    (∀ (s : List Char) (i : Nat) (acc : List Char),
      charAt s i = '\\' → '1' ≤ charAt s (i + 1) → charAt s (i + 1) ≤ '9' →
      convGo s i acc = convGo s (i + 2) (acc ++ ['$', charAt s (i + 1)]))
    ∧ (∀ (s : List Char) (i : Nat) (acc : List Char),
      charAt s i = '\\' → charAt s (i + 1) = 'a' →
      convGo s i acc = convGo s (i + 2) (acc ++ [Char.ofNat 7]))
    ∧ (∀ (s : List Char) (i : Nat) (acc : List Char),
      charAt s i = '\\' → charAt s (i + 1) = 'b' →
      convGo s i acc = convGo s (i + 2) (acc ++ [Char.ofNat 27]))
    ∧ (∀ (s : List Char) (i : Nat) (acc : List Char),
      charAt s i = '\\' → charAt s (i + 1) = 'f' →
      convGo s i acc = convGo s (i + 2) (acc ++ [Char.ofNat 12]))
    ∧ (∀ (s : List Char) (i : Nat) (acc : List Char),
      charAt s i = '\\' → charAt s (i + 1) = 'n' →
      convGo s i acc = convGo s (i + 2) (acc ++ [Char.ofNat 10]))
    ∧ (∀ (s : List Char) (i : Nat) (acc : List Char),
      charAt s i = '\\' → charAt s (i + 1) = 'r' →
      convGo s i acc = convGo s (i + 2) (acc ++ [Char.ofNat 13]))
    ∧ (∀ (s : List Char) (i : Nat) (acc : List Char),
      charAt s i = '\\' → charAt s (i + 1) = 't' →
      convGo s i acc = convGo s (i + 2) (acc ++ [Char.ofNat 9]))
    ∧ (∀ (s : List Char) (i : Nat) (acc : List Char),
      charAt s i = '\\' → charAt s (i + 1) = 'v' →
      convGo s i acc = convGo s (i + 2) (acc ++ [Char.ofNat 11]))
    ∧ (∀ (s : List Char) (i : Nat) (acc : List Char),
      charAt s i = '\\' → charAt s (i + 1) = '\\' →
      convGo s i acc = convGo s (i + 2) (acc ++ ['\\', '\\']))
    ∧ (∀ (s : List Char) (i : Nat) (acc : List Char),
      charAt s i = '\\' → (charAt s (i + 1) = 'x' ∨ charAt s (i + 1) = 'u') →
      convGo s i acc =
        convGo s ((hexScan s (i + 2) (decide (charAt s (i + 1) = 'x'))).2 + 1)
          (acc ++ hexPush (hexScan s (i + 2) (decide (charAt s (i + 1) = 'x'))).1 (charAt s (i + 1))))
    ∧ (∀ (s : List Char) (p : Nat) (b : Bool),
      getHexDigit (charAt s p) < 0 → hexScan s p b = (0, p))
    ∧ (∀ (s : List Char) (p : Nat) (b : Bool),
      0 ≤ getHexDigit (charAt s p) → getHexDigit (charAt s (p + 1)) < 0 →
      hexScan s p b = (getHexDigit (charAt s p), p + 1))
    ∧ (∀ (s : List Char) (p : Nat),
      0 ≤ getHexDigit (charAt s p) → 0 ≤ getHexDigit (charAt s (p + 1)) →
      hexScan s p true =
        (getHexDigit (charAt s p) * 16 + getHexDigit (charAt s (p + 1)), p + 2))
    ∧ (∀ (s : List Char) (p : Nat),
      0 ≤ getHexDigit (charAt s p) → 0 ≤ getHexDigit (charAt s (p + 1)) →
      0 ≤ getHexDigit (charAt s (p + 2)) → 0 ≤ getHexDigit (charAt s (p + 3)) →
      hexScan s p false =
        (((getHexDigit (charAt s p) * 16 + getHexDigit (charAt s (p + 1))) * 16 +
          getHexDigit (charAt s (p + 2))) * 16 + getHexDigit (charAt s (p + 3)), p + 4))
    ∧ (∀ (v : Int) (c : Char),
      (v = 0 → hexPush v c = [c])
      ∧ (v ≠ 0 → v < 128 → hexPush v c = [Char.ofNat v.toNat])
      ∧ (v ≠ 0 → 128 ≤ v → hexPush v c = [ch0]))
    ∧ (∀ (s : List Char) (i : Nat) (acc : List Char),
      charAt s i = '\\' →
      ¬('1' ≤ charAt s (i + 1) ∧ charAt s (i + 1) ≤ '9') →
      charAt s (i + 1) ≠ 'a' → charAt s (i + 1) ≠ 'b' → charAt s (i + 1) ≠ 'f' →
      charAt s (i + 1) ≠ 'n' → charAt s (i + 1) ≠ 'r' → charAt s (i + 1) ≠ 't' →
      charAt s (i + 1) ≠ 'v' → charAt s (i + 1) ≠ '\\' →
      ¬(charAt s (i + 1) = 'x' ∨ charAt s (i + 1) = 'u') →
      convGo s i acc = convGo s (i + 2) (acc ++ ['\\', charAt s (i + 1)]))
    ∧ convertReplExpr ['\\', 'n'] = [Char.ofNat 10]
    ∧ convertReplExpr ['\\', 'b'] = [Char.ofNat 27]
    ∧ convertReplExpr ['\\', '1'] = ['$', '1']
    ∧ convertReplExpr ['\\', '\\'] = ['\\', '\\']
    ∧ convertReplExpr ['\\', 'q'] = ['\\', 'q']
    ∧ convertReplExpr ['\\', 'x', '4', '1', 'Z'] = [Char.ofNat 65]
    ∧ convertReplExpr ['\\', 'x', '5', 'G'] = [Char.ofNat 5]
    ∧ convertReplExpr ['\\', 'u', '0', '0', 'e', '9'] = [Char.ofNat 0] :=
  ⟨convGo_digit_step, convGo_esc_a, convGo_esc_b, convGo_esc_f, convGo_esc_n,
    convGo_esc_r, convGo_esc_t, convGo_esc_v, convGo_esc_bs, convGo_hex_step,
    hexScan_invalid, hexScan_one, hexScan_two_short, hexScan_four, hexPush_cases,
    convGo_default_step, convRepl_n_eq, convRepl_b_eq, convRepl_digit_eq,
    convRepl_bs_eq, convRepl_q_eq, convRepl_x41Z_eq, convRepl_x5G_eq,
    convRepl_u00e9_eq⟩

/-- Witness for C8: the `\b` rewriting step at position 0 of `\bZ`, with the
hypotheses discharged by evaluation. -/
theorem c8_escape_preexpansion_witness :
    convGo ['\\', 'b', 'Z'] 0 [] = convGo ['\\', 'b', 'Z'] (0 + 2) ([] ++ [Char.ofNat 27]) :=
  c8_escape_preexpansion.2.2.1 ['\\', 'b', 'Z'] 0 [] (by decide) (by decide)

/-- C8 counterexample to the claim as stated: `\b` yields the escape byte
`0x1B`, not the backspace byte `0x08`; `\x41Z` consumes the `Z` after the
two hex digits instead of leaving it; `é` yields a single NUL byte
instead of the UTF-8 bytes `0xC3 0xA9`. -/
theorem c8_escape_preexpansion_cx :
    (convertReplExpr ['\\', 'b'] = [Char.ofNat 27] ∧ Char.ofNat 27 ≠ Char.ofNat 8)
    ∧ (convertReplExpr ['\\', 'x', '4', '1', 'Z'] = [Char.ofNat 65]
        ∧ ([Char.ofNat 65] : List Char) ≠ [Char.ofNat 65, 'Z'])
    ∧ (convertReplExpr ['\\', 'u', '0', '0', 'e', '9'] = [Char.ofNat 0]
        ∧ ([Char.ofNat 0] : List Char) ≠ [Char.ofNat 195, Char.ofNat 169]) :=
  ⟨⟨convRepl_b_eq, by decide⟩, ⟨convRepl_x41Z_eq, by decide⟩, ⟨convRepl_u00e9_eq, by decide⟩⟩

/-! ### Path lemmas for `FindText` -/

/-- The engine state right after a successful recompilation: cache key
stored, old handle freed, fresh handle installed. -/
def recompiledEngine (e : Engine) (spat : List Char) (opts : Nat) : Engine :=
  let e2 := freeRegExpr { e with regExprStrg := spat, cmplOptions := opts }
  { e2 with regExpr := some e2.nextHandle, nextHandle := e2.nextHandle + 1 }

/-- The engine state after a recompilation that failed with a pattern
syntax error: cache key stored, old handle freed, no handle installed
(`onig_new` nulls the output handle on failure). -/
def errEngine (e : Engine) (spat : List Char) (opts : Nat) : Engine :=
  { freeRegExpr { e with regExprStrg := spat, cmplOptions := opts } with regExpr := none }

/-- The engine state after a recompilation aborted by an exception: cache
key stored and the old handle freed, but `m_RegExpr` still holds the old —
now dangling — pointer. -/
def excEngine (e : Engine) (spat : List Char) (opts : Nat) : Engine :=
  freeRegExpr { e with regExprStrg := spat, cmplOptions := opts }

theorem findText_cachehit (cmp : Compiler) (srch : Searcher) (e : Engine)
    (doc : Doc) (mn mx : Int) (pat : List Char) (cs w ws : Bool) (sf : Nat)
    (hpat : pat ≠ [])
    (hrc : ¬ needsRecompile e doc mn mx pat cs w ws sf) :
    findText cmp srch e doc mn mx (some pat) cs w ws sf =
      findSearchPhase srch e (effCall doc mn mx cs sf)
        (normRange doc mn mx).1 (normRange doc mn mx).2 false := by
  unfold findText
  dsimp only
  rw [if_neg hpat, if_neg hrc]

theorem findText_recompile_ok (cmp : Compiler) (srch : Searcher) (e : Engine)
    (doc : Doc) (mn mx : Int) (pat : List Char) (cs w ws : Bool) (sf : Nat)
    (hpat : pat ≠ [])
    (hrc : needsRecompile e doc mn mx pat cs w ws sf)
    (hok : cmp (effPattern pat w ws doc.eolMode) (effOptions doc mn mx cs sf) = CompileOutcome.ok) :
    findText cmp srch e doc mn mx (some pat) cs w ws sf =
      findSearchPhase srch
        (recompiledEngine e (effPattern pat w ws doc.eolMode) (effOptions doc mn mx cs sf))
        (effCall doc mn mx cs sf)
        (normRange doc mn mx).1 (normRange doc mn mx).2 true := by
  unfold findText recompiledEngine
  dsimp only
  rw [if_neg hpat, if_pos hrc, hok]

theorem findText_recompile_err (cmp : Compiler) (srch : Searcher) (e : Engine)
    (doc : Doc) (mn mx : Int) (pat : List Char) (cs w ws : Bool) (sf : Nat)
    (code : Int)
    (hpat : pat ≠ [])
    (hrc : needsRecompile e doc mn mx pat cs w ws sf)
    (hc : cmp (effPattern pat w ws doc.eolMode) (effOptions doc mn mx cs sf) = CompileOutcome.err code) :
    findText cmp srch e doc mn mx (some pat) cs w ws sf =
      ⟨-2, none,
        errEngine e (effPattern pat w ws doc.eolMode) (effOptions doc mn mx cs sf),
        true, false⟩ := by
  unfold findText errEngine
  dsimp only
  rw [if_neg hpat, if_pos hrc, hc]

theorem findText_recompile_exc (cmp : Compiler) (srch : Searcher) (e : Engine)
    (doc : Doc) (mn mx : Int) (pat : List Char) (cs w ws : Bool) (sf : Nat)
    (hpat : pat ≠ [])
    (hrc : needsRecompile e doc mn mx pat cs w ws sf)
    (hc : cmp (effPattern pat w ws doc.eolMode) (effOptions doc mn mx cs sf) = CompileOutcome.exc) :
    findText cmp srch e doc mn mx (some pat) cs w ws sf =
      ⟨-2, none,
        excEngine e (effPattern pat w ws doc.eolMode) (effOptions doc mn mx cs sf),
        true, false⟩ := by
  unfold findText excEngine
  dsimp only
  rw [if_neg hpat, if_pos hrc, hc]

theorem findSearchPhase_exc_out (srch : Searcher) (e : Engine)
    (call : SearchCall) (rb re : Int) (b : Bool)
    (h : srch (e.regExpr.getD 0) call = SearchOutcome.exc) :
    findSearchPhase srch e call rb re b =
      ⟨-3, none, { e with matchPos := -1, matchLen := 0, region := emptyRegion }, b, true⟩ := by
  unfold findSearchPhase
  dsimp only
  rw [h]

theorem findSearchPhase_res_out (srch : Searcher) (e : Engine)
    (call : SearchCall) (rb re : Int) (b : Bool) (r : Int) (rgn : OnigRegion)
    (h : srch (e.regExpr.getD 0) call = SearchOutcome.res r rgn) :
    findSearchPhase srch e call rb re b =
      if r < -1 then
        ⟨-3, none, { e with matchPos := -1, matchLen := 0, region := rgn }, b, true⟩
      else if 0 ≤ r ∧ rb ≤ re then
        ⟨rgn.begs.headD 0, some (rgn.ends.headD 0 - rgn.begs.headD 0),
          { e with matchPos := rgn.begs.headD 0, matchLen := rgn.ends.headD 0 - rgn.begs.headD 0, region := rgn }, b, true⟩
      else ⟨-1, some 0, { e with matchPos := -1, matchLen := 0, region := rgn }, b, true⟩ := by
  unfold findSearchPhase
  dsimp only
  rw [h]

/-- C1 (amended): the three failure outcomes of `FindText` are reported as
negative sentinels distinct from each other and from every valid match
position: not-found is `-1`, invalid pattern is `-2`, and an internal
failure *during the search* is `-3` — but an internal exception during
compilation is reported with the *same* sentinel `-2` as a pattern syntax
error, not with a different one.  A successful match returns a
non-negative position. -/
theorem c1_failure_sentinels (cmp : Compiler) (srch : Searcher) (e : Engine)
    (doc : Doc) (mn mx : Int) (pat : List Char) (cs w ws : Bool) (sf : Nat)
    (hpat : pat ≠ []) :
    (((-1 : Int) ≠ -2) ∧ ((-1 : Int) ≠ -3) ∧ ((-2 : Int) ≠ -3))
    ∧ (∀ code : Int, needsRecompile e doc mn mx pat cs w ws sf →
        cmp (effPattern pat w ws doc.eolMode) (effOptions doc mn mx cs sf) = CompileOutcome.err code →
        (findText cmp srch e doc mn mx (some pat) cs w ws sf).res = -2
        ∧ (findText cmp srch e doc mn mx (some pat) cs w ws sf).lengthOut = none)
    ∧ (needsRecompile e doc mn mx pat cs w ws sf →
        cmp (effPattern pat w ws doc.eolMode) (effOptions doc mn mx cs sf) = CompileOutcome.exc →
        (findText cmp srch e doc mn mx (some pat) cs w ws sf).res = -2
        ∧ (findText cmp srch e doc mn mx (some pat) cs w ws sf).lengthOut = none)
    ∧ ((cmp (effPattern pat w ws doc.eolMode) (effOptions doc mn mx cs sf) = CompileOutcome.ok ∨
          ¬ needsRecompile e doc mn mx pat cs w ws sf) →
        ((∀ hd, srch hd (effCall doc mn mx cs sf) = SearchOutcome.exc) →
          (findText cmp srch e doc mn mx (some pat) cs w ws sf).res = -3
          ∧ (findText cmp srch e doc mn mx (some pat) cs w ws sf).lengthOut = none)
        ∧ (∀ rc rgn, rc < -1 → (∀ hd, srch hd (effCall doc mn mx cs sf) = SearchOutcome.res rc rgn) →
          (findText cmp srch e doc mn mx (some pat) cs w ws sf).res = -3
          ∧ (findText cmp srch e doc mn mx (some pat) cs w ws sf).lengthOut = none)
        ∧ (∀ rgn, (∀ hd, srch hd (effCall doc mn mx cs sf) = SearchOutcome.res (-1) rgn) →
          (findText cmp srch e doc mn mx (some pat) cs w ws sf).res = -1
          ∧ (findText cmp srch e doc mn mx (some pat) cs w ws sf).lengthOut = some 0)
        ∧ (∀ rc rgn, 0 ≤ rc → 0 ≤ rgn.begs.headD 0 →
          (normRange doc mn mx).1 ≤ (normRange doc mn mx).2 →
          (∀ hd, srch hd (effCall doc mn mx cs sf) = SearchOutcome.res rc rgn) →
          0 ≤ (findText cmp srch e doc mn mx (some pat) cs w ws sf).res)) := by
  refine ⟨⟨by decide, by decide, by decide⟩, ?_, ?_, ?_⟩
  · intro code hrc hc
    rw [findText_recompile_err cmp srch e doc mn mx pat cs w ws sf code hpat hrc hc]
    exact ⟨rfl, rfl⟩
  · intro hrc hc
    rw [findText_recompile_exc cmp srch e doc mn mx pat cs w ws sf hpat hrc hc]
    exact ⟨rfl, rfl⟩
  · intro hreach
    have hred : ∃ E b, findText cmp srch e doc mn mx (some pat) cs w ws sf =
        findSearchPhase srch E (effCall doc mn mx cs sf)
          (normRange doc mn mx).1 (normRange doc mn mx).2 b := by
      by_cases hrc : needsRecompile e doc mn mx pat cs w ws sf
      · rcases hreach with hok | hnrc
        · exact ⟨_, _, findText_recompile_ok cmp srch e doc mn mx pat cs w ws sf hpat hrc hok⟩
        · exact absurd hrc hnrc
      · exact ⟨_, _, findText_cachehit cmp srch e doc mn mx pat cs w ws sf hpat hrc⟩
    obtain ⟨E, b, heq⟩ := hred
    rw [heq]
    refine ⟨?_, ?_, ?_, ?_⟩
    · intro hs
      rw [findSearchPhase_exc_out srch E _ _ _ b (hs _)]
      exact ⟨rfl, rfl⟩
    · intro rc rgn hlt hs
      rw [findSearchPhase_res_out srch E _ _ _ b rc rgn (hs _)]
      rw [if_pos hlt]
      exact ⟨rfl, rfl⟩
    · intro rgn hs
      rw [findSearchPhase_res_out srch E _ _ _ b (-1) rgn (hs _)]
      rw [if_neg (by omega), if_neg (by rintro ⟨h1, -⟩; omega)]
      exact ⟨rfl, rfl⟩
    · intro rc rgn h0 hb hrb hs
      rw [findSearchPhase_res_out srch E _ _ _ b rc rgn (hs _)]
      rw [if_neg (by omega), if_pos ⟨h0, hrb⟩]
      exact hb

/-- Witness for C1: a compile failure on a fresh engine reports `-2`, a
mismatch on a compiling pattern reports `-1` with length `0`. -/
theorem c1_failure_sentinels_witness :
    ((findText cmpErrW srchMissW initialEngine docW 0 7 (some ['a', 'b']) true false false 0).res = -2)
    ∧ ((findText cmpOkW srchMissW initialEngine docW 0 7 (some ['a', 'b']) true false false 0).res = -1) :=
  ⟨((c1_failure_sentinels cmpErrW srchMissW initialEngine docW 0 7 ['a', 'b'] true false false 0
      (by decide)).2.1 (-100) (by decide) rfl).1,
    (((c1_failure_sentinels cmpOkW srchMissW initialEngine docW 0 7 ['a', 'b'] true false false 0
      (by decide)).2.2.2 (Or.inl rfl)).2.2.1 emptyRegion (fun hd => rfl)).1⟩

/-- C1 counterexample to the claim as stated: a pattern syntax error and an
internal exception during compilation are both reported with the *same*
sentinel `-2`, so the exception-during-compilation outcome is not
distinguishable from the invalid-pattern outcome. -/
theorem c1_compile_exception_sentinel_cx :
    (findText cmpErrW srchMissW initialEngine docW 0 7 (some ['a', 'b']) true false false 0).res = -2
    ∧ (findText cmpExcW srchMissW initialEngine docW 0 7 (some ['a', 'b']) true false false 0).res = -2
    ∧ (findText cmpErrW srchMissW initialEngine docW 0 7 (some ['a', 'b']) true false false 0).res =
        (findText cmpExcW srchMissW initialEngine docW 0 7 (some ['a', 'b']) true false false 0).res := by
  refine ⟨by decide, by decide, by decide⟩

theorem errEngine_wf (e : Engine) (spat : List Char) (opts : Nat)
    (hwf : wfHandles e) : wfHandles (errEngine e spat opts) := by
  unfold errEngine freeRegExpr wfHandles
  cases he : e.regExpr with
  | none =>
    dsimp only
    refine ⟨by simp, hwf.2.1, fun h hm => hwf.2.2 h hm⟩
  | some h0 =>
    dsimp only
    refine ⟨by simp, ?_, ?_⟩
    · refine List.Nodup.append hwf.2.1 (List.nodup_singleton h0) ?_
      intro a ha hmem
      simp only [List.mem_singleton] at hmem
      subst hmem
      exact (hwf.1 a he).2 ha
    · intro x hx
      rcases List.mem_append.mp hx with hx1 | hx2
      · exact hwf.2.2 x hx1
      · simp only [List.mem_singleton] at hx2
        subst hx2
        exact (hwf.1 x he).1

/-- C2 (amended): when recompilation fails with a *pattern syntax error*,
`FindText` reports the invalid-pattern sentinel `-2` and leaves no matcher
handle at all (`m_RegExpr = nullptr`) — nothing dangling, nothing
double-freed (handle well-formedness is preserved) — and a subsequent
search on the same engine with a different, valid pattern compiles afresh
and succeeds.  (The exception path of the same recompilation block does
*not* enjoy this property; see the counterexample.) -/
theorem c2_syntax_failure_safe (cmp : Compiler) (srch : Searcher) (e : Engine)
    (doc : Doc) (mn mx : Int) (pat : List Char) (cs w ws : Bool) (sf : Nat)
    (code : Int)
    (hwf : wfHandles e) (hpat : pat ≠ [])
    (hrc : needsRecompile e doc mn mx pat cs w ws sf)
    (hfail : cmp (effPattern pat w ws doc.eolMode) (effOptions doc mn mx cs sf) = CompileOutcome.err code) :
    (findText cmp srch e doc mn mx (some pat) cs w ws sf).res = -2
    ∧ (findText cmp srch e doc mn mx (some pat) cs w ws sf).state.regExpr = none
    ∧ wfHandles (findText cmp srch e doc mn mx (some pat) cs w ws sf).state
    ∧ (∀ (mn2 mx2 : Int) (pat2 : List Char) (cs2 w2 ws2 : Bool) (sf2 : Nat) (rc : Int) (rgn : OnigRegion),
        pat2 ≠ [] →
        cmp (effPattern pat2 w2 ws2 doc.eolMode) (effOptions doc mn2 mx2 cs2 sf2) = CompileOutcome.ok →
        (∀ hd, srch hd (effCall doc mn2 mx2 cs2 sf2) = SearchOutcome.res rc rgn) →
        0 ≤ rc → 0 ≤ rgn.begs.headD 0 →
        (normRange doc mn2 mx2).1 ≤ (normRange doc mn2 mx2).2 →
        (findText cmp srch (findText cmp srch e doc mn mx (some pat) cs w ws sf).state
            doc mn2 mx2 (some pat2) cs2 w2 ws2 sf2).res = rgn.begs.headD 0
        ∧ 0 ≤ (findText cmp srch (findText cmp srch e doc mn mx (some pat) cs w ws sf).state
            doc mn2 mx2 (some pat2) cs2 w2 ws2 sf2).res) := by
  rw [findText_recompile_err cmp srch e doc mn mx pat cs w ws sf code hpat hrc hfail]
  refine ⟨rfl, ?_, ?_, ?_⟩
  · unfold errEngine
    rfl
  · exact errEngine_wf e _ _ hwf
  · intro mn2 mx2 pat2 cs2 w2 ws2 sf2 rc rgn hpat2 hok2 hs h0 hb hrb
    have hrc2 : needsRecompile (errEngine e (effPattern pat w ws doc.eolMode) (effOptions doc mn mx cs sf))
        doc mn2 mx2 pat2 cs2 w2 ws2 sf2 := by
      unfold needsRecompile errEngine
      exact Or.inl rfl
    rw [findText_recompile_ok cmp srch _ doc mn2 mx2 pat2 cs2 w2 ws2 sf2 hpat2 hrc2 hok2]
    rw [findSearchPhase_res_out srch _ _ _ _ true rc rgn (hs _)]
    rw [if_neg (by omega), if_pos ⟨h0, hrb⟩]
    exact ⟨rfl, hb⟩

/-- A compiler that rejects the malformed pattern `(a` with a syntax error
and accepts everything else. -/
def cmpMixW : Compiler :=
  fun spat _ => if spat = ['(', 'a'] then CompileOutcome.err (-100) else CompileOutcome.ok

/-- Witness for C2: an engine holding a handle recompiles a new pattern,
the compile fails with a syntax error; the call reports `-2`, stores no
handle, stays well-formed, and a following valid search finds at 2. -/
theorem c2_syntax_failure_safe_witness :
    (findText cmpMixW srchFoundW engHeldW docW 0 7 (some ['(', 'a']) true false false 0).res = -2
    ∧ (findText cmpMixW srchFoundW engHeldW docW 0 7 (some ['(', 'a']) true false false 0).state.regExpr = none
    ∧ (findText cmpMixW srchFoundW
        (findText cmpMixW srchFoundW engHeldW docW 0 7 (some ['(', 'a']) true false false 0).state
        docW 0 7 (some ['a', 'b']) true false false 0).res = 2 :=
  ⟨(c2_syntax_failure_safe cmpMixW srchFoundW engHeldW docW 0 7 ['(', 'a'] true false false 0
      (-100) (by decide) (by decide) (by decide) (by decide)).1,
    (c2_syntax_failure_safe cmpMixW srchFoundW engHeldW docW 0 7 ['(', 'a'] true false false 0
      (-100) (by decide) (by decide) (by decide) (by decide)).2.1,
    ((c2_syntax_failure_safe cmpMixW srchFoundW engHeldW docW 0 7 ['(', 'a'] true false false 0
      (-100) (by decide) (by decide) (by decide) (by decide)).2.2.2 0 7 ['a', 'b'] true false false 0 2
      ⟨1, [2], [5]⟩ (by decide) (by decide) (fun hd => rfl) (by decide) (by decide) (by decide)).1⟩

/-- C2 counterexample to the claim as stated: when the recompilation is
aborted by an internal exception (an outcome the spec itself reports
upward), the already-freed old handle stays stored in `m_RegExpr` — a
dangling handle.  A later call with the same effective pattern and options
skips recompilation and dereferences it in `onig_search`, and a later call
with a different pattern frees it a second time (duplicate entry in the
ghost `freed` list). -/
theorem c2_dangling_handle_cx :
    (findText cmpExcW srchFoundW engHeldW docW 0 7 (some ['a', 'b']) true false false 0).res = -2
    ∧ (findText cmpExcW srchFoundW engHeldW docW 0 7 (some ['a', 'b']) true false false 0).state.regExpr = some 0
    ∧ (findText cmpExcW srchFoundW engHeldW docW 0 7 (some ['a', 'b']) true false false 0).state.freed = [0]
    ∧ (findText cmpExcW srchFoundW
        (findText cmpExcW srchFoundW engHeldW docW 0 7 (some ['a', 'b']) true false false 0).state
        docW 0 7 (some ['a', 'b']) true false false 0).recompiled = false
    ∧ (findText cmpExcW srchFoundW
        (findText cmpExcW srchFoundW engHeldW docW 0 7 (some ['a', 'b']) true false false 0).state
        docW 0 7 (some ['a', 'b']) true false false 0).searched = true
    ∧ (findText cmpOkW srchFoundW
        (findText cmpExcW srchFoundW engHeldW docW 0 7 (some ['a', 'b']) true false false 0).state
        docW 0 7 (some ['c', 'd']) true false false 0).state.freed = [0, 0]
    ∧ ¬ ([0, 0] : List Nat).Nodup := by
  refine ⟨by decide, by decide, by decide, by decide, by decide, by decide, by decide⟩

theorem errEngine_fields (e : Engine) (spat : List Char) (opts : Nat) :
    (errEngine e spat opts).regExpr = none
    ∧ (errEngine e spat opts).cmplOptions = opts
    ∧ (errEngine e spat opts).regExprStrg = spat
    ∧ (errEngine e spat opts).matchPos = e.matchPos
    ∧ (errEngine e spat opts).matchLen = e.matchLen
    ∧ (errEngine e spat opts).region = e.region
    ∧ (errEngine e spat opts).nextHandle = e.nextHandle := by
  unfold errEngine
  cases he : e.regExpr <;> simp [freeRegExpr, he]

theorem recompiledEngine_fields (e : Engine) (spat : List Char) (opts : Nat) :
    (recompiledEngine e spat opts).regExpr = some e.nextHandle
    ∧ (recompiledEngine e spat opts).cmplOptions = opts
    ∧ (recompiledEngine e spat opts).regExprStrg = spat := by
  unfold recompiledEngine
  dsimp only
  cases he : e.regExpr <;> simp [freeRegExpr, he]

/-- C9 (amended): provided each compile attempt either succeeds or fails
with a syntax error (no internal exception during compilation — the
outcome that leaves the stale handle stored, see the counterexample), two
consecutive `FindText` calls with identical arguments on an unchanged
document return the same value, write the same output length, and leave
the same stored match position, match length and capture region — whether
the first call recompiled and the second hit the cache, both failed to
compile, or both hit the cache. -/
theorem c9_find_idempotent (cmp : Compiler) (srch : Searcher) (e : Engine)
    (doc : Doc) (mn mx : Int) (pattern : Option (List Char))
    (cs w ws : Bool) (sf : Nat)
    (hnoexc : ∀ pat, pattern = some pat →
      cmp (effPattern pat w ws doc.eolMode) (effOptions doc mn mx cs sf) ≠ CompileOutcome.exc) :
    (findText cmp srch (findText cmp srch e doc mn mx pattern cs w ws sf).state
        doc mn mx pattern cs w ws sf).res
      = (findText cmp srch e doc mn mx pattern cs w ws sf).res
    ∧ (findText cmp srch (findText cmp srch e doc mn mx pattern cs w ws sf).state
        doc mn mx pattern cs w ws sf).lengthOut
      = (findText cmp srch e doc mn mx pattern cs w ws sf).lengthOut
    ∧ (findText cmp srch (findText cmp srch e doc mn mx pattern cs w ws sf).state
        doc mn mx pattern cs w ws sf).state.matchPos
      = (findText cmp srch e doc mn mx pattern cs w ws sf).state.matchPos
    ∧ (findText cmp srch (findText cmp srch e doc mn mx pattern cs w ws sf).state
        doc mn mx pattern cs w ws sf).state.matchLen
      = (findText cmp srch e doc mn mx pattern cs w ws sf).state.matchLen
    ∧ (findText cmp srch (findText cmp srch e doc mn mx pattern cs w ws sf).state
        doc mn mx pattern cs w ws sf).state.region
      = (findText cmp srch e doc mn mx pattern cs w ws sf).state.region := by
  cases pattern with
  | none => exact ⟨rfl, rfl, rfl, rfl, rfl⟩
  | some pat =>
    by_cases hpe : pat = []
    · subst hpe
      exact ⟨rfl, rfl, rfl, rfl, rfl⟩
    · by_cases hrc : needsRecompile e doc mn mx pat cs w ws sf
      · cases hc : cmp (effPattern pat w ws doc.eolMode) (effOptions doc mn mx cs sf) with
        | exc => exact absurd hc (hnoexc pat rfl)
        | err code =>
          rw [findText_recompile_err cmp srch e doc mn mx pat cs w ws sf code hpe hrc hc]
          dsimp only
          have hrc2 : needsRecompile
              (errEngine e (effPattern pat w ws doc.eolMode) (effOptions doc mn mx cs sf))
              doc mn mx pat cs w ws sf :=
            Or.inl (errEngine_fields e _ _).1
          rw [findText_recompile_err cmp srch _ doc mn mx pat cs w ws sf code hpe hrc2 hc]
          refine ⟨rfl, rfl, ?_, ?_, ?_⟩
          · exact (errEngine_fields _ _ _).2.2.2.1
          · exact (errEngine_fields _ _ _).2.2.2.2.1
          · exact (errEngine_fields _ _ _).2.2.2.2.2.1
        | ok =>
          rw [findText_recompile_ok cmp srch e doc mn mx pat cs w ws sf hpe hrc hc]
          have hfr := findSearchPhase_frame srch
            (recompiledEngine e (effPattern pat w ws doc.eolMode) (effOptions doc mn mx cs sf))
            (effCall doc mn mx cs sf) (normRange doc mn mx).1 (normRange doc mn mx).2 true
          have hrc2 : ¬ needsRecompile
              (findSearchPhase srch
                (recompiledEngine e (effPattern pat w ws doc.eolMode) (effOptions doc mn mx cs sf))
                (effCall doc mn mx cs sf) (normRange doc mn mx).1 (normRange doc mn mx).2 true).state
              doc mn mx pat cs w ws sf := by
            unfold needsRecompile
            push_neg
            refine ⟨?_, ?_, ?_⟩
            · rw [hfr.2.2.1, (recompiledEngine_fields _ _ _).1]
              simp
            · rw [hfr.2.1, (recompiledEngine_fields _ _ _).2.1]
            · rw [hfr.1, (recompiledEngine_fields _ _ _).2.2]
          rw [findText_cachehit cmp srch _ doc mn mx pat cs w ws sf hpe hrc2]
          have hcong := findSearchPhase_congr srch
            (findSearchPhase srch
              (recompiledEngine e (effPattern pat w ws doc.eolMode) (effOptions doc mn mx cs sf))
              (effCall doc mn mx cs sf) (normRange doc mn mx).1 (normRange doc mn mx).2 true).state
            (recompiledEngine e (effPattern pat w ws doc.eolMode) (effOptions doc mn mx cs sf))
            (effCall doc mn mx cs sf) (normRange doc mn mx).1 (normRange doc mn mx).2 false true
            (by rw [hfr.2.2.1])
          exact ⟨hcong.1, hcong.2.1, hcong.2.2.1, hcong.2.2.2.1, hcong.2.2.2.2⟩
      · rw [findText_cachehit cmp srch e doc mn mx pat cs w ws sf hpe hrc]
        have hfr := findSearchPhase_frame srch e (effCall doc mn mx cs sf)
          (normRange doc mn mx).1 (normRange doc mn mx).2 false
        have hrc2 : ¬ needsRecompile
            (findSearchPhase srch e (effCall doc mn mx cs sf)
              (normRange doc mn mx).1 (normRange doc mn mx).2 false).state
            doc mn mx pat cs w ws sf := by
          unfold needsRecompile at hrc ⊢
          push_neg at hrc ⊢
          exact ⟨by rw [hfr.2.2.1]; exact hrc.1, by rw [hfr.2.1]; exact hrc.2.1,
            by rw [hfr.1]; exact hrc.2.2⟩
        rw [findText_cachehit cmp srch _ doc mn mx pat cs w ws sf hpe hrc2]
        have hcong := findSearchPhase_congr srch
          (findSearchPhase srch e (effCall doc mn mx cs sf)
            (normRange doc mn mx).1 (normRange doc mn mx).2 false).state
          e (effCall doc mn mx cs sf) (normRange doc mn mx).1 (normRange doc mn mx).2 false false
          (by rw [hfr.2.2.1])
        exact ⟨hcong.1, hcong.2.1, hcong.2.2.1, hcong.2.2.2.1, hcong.2.2.2.2⟩

/-- Witness for C9: two identical finds on a fresh engine (first call
recompiles, second hits the cache) return the same result. -/
theorem c9_find_idempotent_witness :
    (findText cmpOkW srchFoundW
        (findText cmpOkW srchFoundW initialEngine docW 0 7 (some ['a', 'b']) true false false 0).state
        docW 0 7 (some ['a', 'b']) true false false 0).res
      = (findText cmpOkW srchFoundW initialEngine docW 0 7 (some ['a', 'b']) true false false 0).res :=
  (c9_find_idempotent cmpOkW srchFoundW initialEngine docW 0 7 (some ['a', 'b']) true false false 0
    (by intro pat hp; cases hp; decide)).1

/-- C9 counterexample to the claim as stated: when the first call's
recompilation is aborted by an internal exception, it returns `-2` but
leaves the cache key matching the stale handle, so the identical second
call skips recompilation, searches, and returns `2` — different results
for identical consecutive calls on an unchanged document. -/
theorem c9_not_idempotent_cx :
    (findText cmpExcW srchFoundW engHeldW docW 0 7 (some ['a', 'b']) true false false 0).res = -2
    ∧ (findText cmpExcW srchFoundW
        (findText cmpExcW srchFoundW engHeldW docW 0 7 (some ['a', 'b']) true false false 0).state
        docW 0 7 (some ['a', 'b']) true false false 0).res = 2
    ∧ ((-2 : Int) ≠ 2) := by
  refine ⟨by decide, by decide, by decide⟩

/-- C10: a find request with a null or empty pattern returns before any
stored state is touched — cached match position, match length, capture
region, compiled-pattern cache and substitution buffer are all exactly as
the previous search left them (the state is unchanged), so a substitution
issued afterwards still expands against the earlier successful match.  By
contrast, every find with a non-empty pattern that reaches the search
stage first resets the stored match position to the not-found sentinel
`-1` and the match length to `0`: whenever the search does not produce a
match (engine error, exception, or mismatch) the reset values are what
remains, and on a match the stored position is the freshly found one. -/
theorem c10_empty_pattern_frame (cmp : Compiler) (srch : Searcher) (e : Engine)
    (doc : Doc) (mn mx : Int) (cs w ws : Bool) (sf : Nat) (nt : NameTable)
    (t : List Char) (li : Int) :
    (findText cmp srch e doc mn mx none cs w ws sf).state = e
    ∧ (findText cmp srch e doc mn mx (some []) cs w ws sf).state = e
    ∧ substituteByPosition nt (findText cmp srch e doc mn mx none cs w ws sf).state doc t li
        = substituteByPosition nt e doc t li
    ∧ (∀ pat : List Char, pat ≠ [] →
        (cmp (effPattern pat w ws doc.eolMode) (effOptions doc mn mx cs sf) = CompileOutcome.ok ∨
          ¬ needsRecompile e doc mn mx pat cs w ws sf) →
        (∀ hd rc rgn, srch hd (effCall doc mn mx cs sf) = SearchOutcome.res rc rgn →
          0 ≤ rc → 0 ≤ rgn.begs.headD 0) →
        (findText cmp srch e doc mn mx (some pat) cs w ws sf).searched = true
        ∧ ((findText cmp srch e doc mn mx (some pat) cs w ws sf).res < 0 →
            (findText cmp srch e doc mn mx (some pat) cs w ws sf).state.matchPos = -1
            ∧ (findText cmp srch e doc mn mx (some pat) cs w ws sf).state.matchLen = 0)
        ∧ (0 ≤ (findText cmp srch e doc mn mx (some pat) cs w ws sf).res →
            (findText cmp srch e doc mn mx (some pat) cs w ws sf).res
              = (findText cmp srch e doc mn mx (some pat) cs w ws sf).state.matchPos)) := by
  refine ⟨rfl, ?_, rfl, ?_⟩
  · unfold findText
    simp
  · intro pat hpat hreach hwfs
    have hred : ∃ E b, findText cmp srch e doc mn mx (some pat) cs w ws sf =
        findSearchPhase srch E (effCall doc mn mx cs sf)
          (normRange doc mn mx).1 (normRange doc mn mx).2 b := by
      by_cases hrc : needsRecompile e doc mn mx pat cs w ws sf
      · rcases hreach with hok | hnrc
        · exact ⟨_, _, findText_recompile_ok cmp srch e doc mn mx pat cs w ws sf hpat hrc hok⟩
        · exact absurd hrc hnrc
      · exact ⟨_, _, findText_cachehit cmp srch e doc mn mx pat cs w ws sf hpat hrc⟩
    obtain ⟨E, b, heq⟩ := hred
    rw [heq]
    cases hs : srch (E.regExpr.getD 0) (effCall doc mn mx cs sf) with
    | exc =>
      rw [findSearchPhase_exc_out srch E _ _ _ b hs]
      refine ⟨rfl, fun _ => ⟨rfl, rfl⟩, ?_⟩
      intro h0
      dsimp only at h0
      omega
    | res r rgn =>
      rw [findSearchPhase_res_out srch E _ _ _ b r rgn hs]
      by_cases hlt : r < -1
      · rw [if_pos hlt]
        refine ⟨rfl, fun _ => ⟨rfl, rfl⟩, ?_⟩
        intro h0
        dsimp only at h0
        omega
      · rw [if_neg hlt]
        by_cases hfnd : 0 ≤ r ∧ (normRange doc mn mx).1 ≤ (normRange doc mn mx).2
        · rw [if_pos hfnd]
          have hbeg := hwfs (E.regExpr.getD 0) r rgn hs hfnd.1
          refine ⟨rfl, ?_, fun _ => rfl⟩
          intro hneg
          dsimp only at hneg
          exact absurd hneg (by omega)
        · rw [if_neg hfnd]
          refine ⟨rfl, fun _ => ⟨rfl, rfl⟩, ?_⟩
          intro h0
          dsimp only at h0
          omega

/-- Witness for C10: a non-empty pattern that compiles and mismatches
reaches the search stage and leaves the reset values `(-1, 0)` behind. -/
theorem c10_empty_pattern_frame_witness :
    (findText cmpOkW srchMissW initialEngine docW 0 7 (some ['a', 'b']) true false false 0).searched = true
    ∧ (findText cmpOkW srchMissW initialEngine docW 0 7 (some ['a', 'b']) true false false 0).state.matchPos = -1
    ∧ (findText cmpOkW srchMissW initialEngine docW 0 7 (some ['a', 'b']) true false false 0).state.matchLen = 0 :=
  ⟨((c10_empty_pattern_frame cmpOkW srchMissW initialEngine docW 0 7 true false false 0 ntW [] 0).2.2.2
      ['a', 'b'] (by decide) (Or.inl rfl)
      (by intro hd rc rgn hsr h0; injection hsr with h1 h2; omega)).1,
    (((c10_empty_pattern_frame cmpOkW srchMissW initialEngine docW 0 7 true false false 0 ntW [] 0).2.2.2
      ['a', 'b'] (by decide) (Or.inl rfl)
      (by intro hd rc rgn hsr h0; injection hsr with h1 h2; omega)).2.1 (by decide)).1,
    (((c10_empty_pattern_frame cmpOkW srchMissW initialEngine docW 0 7 true false false 0 ntW [] 0).2.2.2
      ['a', 'b'] (by decide) (Or.inl rfl)
      (by intro hd rc rgn hsr h0; injection hsr with h1 h2; omega)).2.1 (by decide)).2⟩
